import Mathlib

/-!
Verification of the txscript opcode subsystem (pkg/chain/tx/script/opcode.go).

Byte strings are modelled as `List Nat` (each element intended < 256);
machine integers that can be negative (Go `int`, `int64`) are modelled as `Int`.
The data stack is a `List (List Nat)` whose head is the top of the stack
(the Go slice keeps the top at its end; pops remove the head here).
The condition stack keeps the Go orientation: entries are appended at the
end of the list, so the innermost conditional marker is the last element.

External collaborators (the elliptic-curve package, signature-hash
computation and the verification cache) are consumed through an oracle
record of pure functions, mirroring the spec's statement that they are
opaque capabilities outside this component.
-/

/-- Error kinds of the script engine (ErrorCode in the source, reduced to the
tags this development needs). -/
inductive ScriptError where
  | ErrDisabledOpcode
  | ErrReservedOpcode
  | ErrUnbalancedConditional
  | ErrMinimalData
  | ErrMinimalIf
  | ErrNegativeLockTime
  | ErrUnsatisfiedLockTime
  | ErrStackUnderflow
  | ErrInvalidPubKeyCount
  | ErrInvalidSignatureCount
  | ErrTooManyOperations
  | ErrSigNullDummy
  | ErrNullFail
  | ErrInvalidSigHashType
  | ErrSigEncoding
  | ErrPubKeyEncoding
  | ErrWitnessSigHash
  | ErrNumberTooBig
  | ErrDiscourageUpgradableNOPs
  | ErrMalformedPush
  | ErrInternal
  deriving DecidableEq, Repr

/-! Opcode byte values, from the constant block of opcode.go. -/

def OpZero : Nat := 0x00

def OpData1 : Nat := 0x01

def OpData75 : Nat := 0x4b

def OpPushData1 : Nat := 0x4c

def OpPushData2 : Nat := 0x4d

def OpPushData4 : Nat := 0x4e

def Op1Negate : Nat := 0x4f

def Op1 : Nat := 0x51

def Op16 : Nat := 0x60

def OpIf : Nat := 0x63

def OpIfNot : Nat := 0x64

def OpVerIf : Nat := 0x65

def OpVerIfNot : Nat := 0x66

def OpElse : Nat := 0x67

def OpEndIf : Nat := 0x68

def OpCat : Nat := 0x7e

def OpSubstr : Nat := 0x7f

def OpLeft : Nat := 0x80

def OpRight : Nat := 0x81

def OpInvert : Nat := 0x83

def OpAnd : Nat := 0x84

def OpOr : Nat := 0x85

def OpXor : Nat := 0x86

def Op1Mul : Nat := 0x8d

def Op2Div : Nat := 0x8e

def OpMul : Nat := 0x95

def OpDiv : Nat := 0x96

def OpMod : Nat := 0x97

def OpLShift : Nat := 0x98

def OpRShift : Nat := 0x99

/-! Conditional execution constants (source: OpCondFalse/OpCondTrue/OpCondSkip). -/

def OpCondFalse : Nat := 0

def OpCondTrue : Nat := 1

def OpCondSkip : Nat := 2

/-- A parsed opcode: the opcode byte value together with any associated push
data (source type parsedOpcode; the opcode pointer is represented by the
byte value, its table attributes being functions of that value). -/
structure ParsedOpcode where
  opcodeValue : Nat
  data : List Nat
  deriving DecidableEq, Repr

/-- Source isDisabled: whether the opcode is always bad to see in the
instruction stream, even if turned off by a conditional (switch over the
fifteen disabled opcode values). -/
def ParsedOpcode.isDisabled (pop : ParsedOpcode) : Bool :=
  if pop.opcodeValue = OpCat then true
  else if pop.opcodeValue = OpSubstr then true
  else if pop.opcodeValue = OpLeft then true
  else if pop.opcodeValue = OpRight then true
  else if pop.opcodeValue = OpInvert then true
  else if pop.opcodeValue = OpAnd then true
  else if pop.opcodeValue = OpOr then true
  else if pop.opcodeValue = OpXor then true
  else if pop.opcodeValue = Op1Mul then true
  else if pop.opcodeValue = Op2Div then true
  else if pop.opcodeValue = OpMul then true
  else if pop.opcodeValue = OpDiv then true
  else if pop.opcodeValue = OpMod then true
  else if pop.opcodeValue = OpLShift then true
  else if pop.opcodeValue = OpRShift then true
  else false

/-- Source alwaysIllegal: opcodes that are always illegal when passed over by
the program counter, even in a non-executed branch (OpVerIf, OpVerIfNot). -/
def ParsedOpcode.alwaysIllegal (pop : ParsedOpcode) : Bool :=
  if pop.opcodeValue = OpVerIf then true
  else if pop.opcodeValue = OpVerIfNot then true
  else false

/-- Source isConditional: opcodes that change the conditional execution stack
when executed (OpIf, OpIfNot, OpElse, OpEndIf). -/
def ParsedOpcode.isConditional (pop : ParsedOpcode) : Bool :=
  if pop.opcodeValue = OpIf then true
  else if pop.opcodeValue = OpIfNot then true
  else if pop.opcodeValue = OpElse then true
  else if pop.opcodeValue = OpEndIf then true
  else false

/-- Source checkMinimalDataPush: whether the data push uses the smallest
possible opcode to represent it.  `none` is the nil (accepting) return; the
sequential else-if chain of the source is kept exactly, including its final
fall-through for payloads longer than 65535 bytes. -/
def ParsedOpcode.checkMinimalDataPush (pop : ParsedOpcode) : Option ScriptError :=
  let data := pop.data
  let dataLen := data.length
  let opcode := pop.opcodeValue
  if dataLen = 0 ∧ opcode ≠ OpZero then
    some .ErrMinimalData
  else if dataLen = 1 ∧ 1 ≤ data.headD 0 ∧ data.headD 0 ≤ 16 then
    if opcode ≠ Op1 + data.headD 0 - 1 then some .ErrMinimalData else none
  else if dataLen = 1 ∧ data.headD 0 = 0x81 then
    if opcode ≠ Op1Negate then some .ErrMinimalData else none
  else if dataLen ≤ 75 then
    if opcode ≠ dataLen then some .ErrMinimalData else none
  else if dataLen ≤ 255 then
    if opcode ≠ OpPushData1 then some .ErrMinimalData else none
  else if dataLen ≤ 65535 then
    if opcode ≠ OpPushData2 then some .ErrMinimalData else none
  else none

/-! ## Script codec: opcode lengths, re-serialization (source bytes), decoder -/

/-- The length column of the source opcodeArray, as a function of the opcode
byte value: OpZero and every non-push opcode have length 1, each OpDataN has
length N+1, and OpPushData1/2/4 carry the sentinels -1, -2, -4 meaning the next
1/2/4 little-endian bytes give the push length. -/
def opcodeLength (b : Nat) : Int :=
  if b = 0 then 1
  else if b ≤ 75 then (b : Int) + 1
  else if b = OpPushData1 then -1
  else if b = OpPushData2 then -2
  else if b = OpPushData4 then -4
  else 1

/-- Little-endian value of a byte list (least significant byte first). -/
def leNat : List Nat → Nat
  | [] => 0
  | b :: rest => b + 256 * leNat rest

/-- Source bytes(): re-serialize a parsed opcode as it would appear in a
script: the opcode byte, then for the PUSHDATA opcodes a 1/2/4-byte
little-endian length prefix (computed with the same byte truncations as the
source), then the payload, with the source's internal consistency checks. -/
def ParsedOpcode.bytesEnc (pop : ParsedOpcode) : Except ScriptError (List Nat) :=
  let length := opcodeLength pop.opcodeValue
  if length = 1 then
    if pop.data.length ≠ 0 then .error .ErrInternal
    else .ok [pop.opcodeValue]
  else if 0 < length then
    -- fixed-size data push: nbytes = length, retbytes = value :: data
    if (1 + pop.data.length : Int) = length then .ok (pop.opcodeValue :: pop.data)
    else .error .ErrInternal
  else
    let l := pop.data.length
    if length = -1 then
      let retbytes := pop.opcodeValue :: [l % 256]
      let nbytes := l % 256 + retbytes.length
      if (retbytes ++ pop.data).length = nbytes then .ok (retbytes ++ pop.data)
      else .error .ErrInternal
    else if length = -2 then
      let retbytes := pop.opcodeValue :: [l % 256, l / 256 % 256]
      let nbytes := l % 65536 + retbytes.length
      if (retbytes ++ pop.data).length = nbytes then .ok (retbytes ++ pop.data)
      else .error .ErrInternal
    else
      let retbytes := pop.opcodeValue :: [l % 256, l / 256 % 256,
        l / 65536 % 256, l / 16777216 % 256]
      let nbytes := l % 4294967296 + retbytes.length
      if (retbytes ++ pop.data).length = nbytes then .ok (retbytes ++ pop.data)
      else .error .ErrInternal

/-- Modelled from the spec: the script decoder (parseScript, in script.go,
which is not under src/).  Walks the raw script byte-by-byte: a direct-push
byte consumes that many following bytes as push data; PUSHDATA1/2/4 read a
1/2/4-byte little-endian length prefix then that many data bytes; every
other opcode consumes exactly one byte and no data.  Decoding fails when a
declared push length would run past the end of the script. -/
def parseScript (script : List Nat) : Except ScriptError (List ParsedOpcode) :=
  match script with
  | [] => .ok []
  | b :: rest =>
    let len := opcodeLength b
    if len = 1 then
      match parseScript rest with
      | .error e => .error e
      | .ok pops => .ok (⟨b, []⟩ :: pops)
    else if 0 < len then
      let n := len.toNat - 1
      if rest.length < n then .error .ErrMalformedPush
      else
        match parseScript (rest.drop n) with
        | .error e => .error e
        | .ok pops => .ok (⟨b, rest.take n⟩ :: pops)
    else
      let pl := (-len).toNat
      if rest.length < pl then .error .ErrMalformedPush
      else
        let L := leNat (rest.take pl)
        let body := rest.drop pl
        if body.length < L then .error .ErrMalformedPush
        else
          match parseScript (body.drop L) with
          | .error e => .error e
          | .ok pops => .ok (⟨b, body.take L⟩ :: pops)
termination_by script.length
decreasing_by
  all_goals (simp only [List.length_drop, List.length_cons]; omega)

/-- Re-serialize a parsed opcode sequence by concatenating the bytesEnc of
each parsed opcode in order (source unparseScript). -/
def unparseScript : List ParsedOpcode → Except ScriptError (List Nat)
  | [] => .ok []
  | p :: ps =>
    match p.bytesEnc with
    | .error e => .error e
    | .ok b =>
      match unparseScript ps with
      | .error e => .error e
      | .ok rest => .ok (b ++ rest)

/-! ## Numeric encoding (scriptNum) and stack primitives.
The scriptNum codec and the stack container live in scriptnum.go and
stack.go, which are not under src/; they are modelled from the spec
(sections 4.1 and 4.2). -/

/-- Modelled from the spec: scriptNum decoding (makeScriptNum's value
computation, scriptnum.go not under src/): variable-length signed
little-endian integer with the high bit of the last byte used as a sign
flag. -/
def scriptNumDecode (v : List Nat) : Int :=
  match v with
  | [] => 0
  | _ :: _ =>
    let last := v.getLastD 0
    if 0x80 ≤ last % 256 then
      -((leNat v.dropLast : Int) + (last % 256 - 0x80) * (256 : Int) ^ v.dropLast.length)
    else (leNat v : Int)

/-- Modelled from the spec: the minimal-encoding predicate for scriptNums
(checkMinimalDataEncoding, scriptnum.go not under src/): rejects a trailing
byte that carries no information — a most-significant byte whose value bits
are all zero is allowed only when it supplies a sign bit that would not fit
in the preceding byte. -/
def scriptNumMinimal (v : List Nat) : Bool :=
  match v with
  | [] => true
  | _ :: _ =>
    if v.getLastD 0 % 128 ≠ 0 then true
    else if v.length = 1 then false
    else 0x80 ≤ v.dropLast.getLastD 0

/-- Modelled from the spec: makeScriptNum (scriptnum.go not under src/):
rejects encodings longer than the caller-specified byte limit, rejects
non-minimal encodings when minimal-data enforcement is active, and
otherwise decodes. -/
def makeScriptNum (v : List Nat) (requireMinimal : Bool) (scriptNumLen : Nat) :
    Except ScriptError Int :=
  if scriptNumLen < v.length then .error .ErrNumberTooBig
  else if requireMinimal ∧ ¬ scriptNumMinimal v then .error .ErrMinimalData
  else .ok (scriptNumDecode v)

/-- Modelled from the spec: scriptNum.Int32 (scriptnum.go not under src/):
clamp to the 32-bit signed range, as used for the multisig counts. -/
def scriptNumInt32 (n : Int) : Int :=
  if 2147483647 < n then 2147483647
  else if n < -2147483648 then -2147483648
  else n

/-- Modelled from the spec: boolean interpretation of a stack item (asBool,
stack.go not under src/): false when the bytes are all zero, or all zero
except a final 0x80 negative-zero sign byte; true otherwise. -/
def asBool : List Nat → Bool
  | [] => false
  | [b] => ¬ (b = 0 ∨ b = 0x80)
  | b :: c :: rest => if b ≠ 0 then true else asBool (c :: rest)

/-- Modelled from the spec: pushing a boolean (fromBool, stack.go not under
src/): false is the empty array, true the single byte 1. -/
def fromBool (b : Bool) : List Nat :=
  if b then [1] else []

/-- Modelled from the spec: PopByteArray (stack.go not under src/): pop the
top stack item, stack-underflow error when empty. -/
def popByteArray (stk : List (List Nat)) :
    Except ScriptError (List Nat × List (List Nat)) :=
  match stk with
  | [] => .error .ErrStackUnderflow
  | x :: xs => .ok (x, xs)

/-- Modelled from the spec: PeekByteArray (stack.go not under src/): read the
item `idx` entries down from the top without removing it. -/
def peekByteArray (stk : List (List Nat)) (idx : Nat) :
    Except ScriptError (List Nat) :=
  match stk[idx]? with
  | none => .error .ErrStackUnderflow
  | some x => .ok x

/-- Modelled from the spec: PopBool (stack.go not under src/). -/
def popBool (stk : List (List Nat)) :
    Except ScriptError (Bool × List (List Nat)) :=
  match popByteArray stk with
  | .error e => .error e
  | .ok (so, rest) => .ok (asBool so, rest)

/-- Modelled from the spec: PopInt (stack.go not under src/): pop the top
item and decode it as a scriptNum of at most 4 bytes, with minimal-data
enforcement following the stack's verifyMinimalData setting. -/
def popInt (verifyMinimalData : Bool) (stk : List (List Nat)) :
    Except ScriptError (Int × List (List Nat)) :=
  match popByteArray stk with
  | .error e => .error e
  | .ok (so, rest) =>
    match makeScriptNum so verifyMinimalData 4 with
    | .error e => .error e
    | .ok n => .ok (n, rest)

/-- Pop `n` items off the stack, returning them in pop order (first popped
first), as the multisig handler's pop loops do. -/
def popN : Nat → List (List Nat) → Except ScriptError (List (List Nat) × List (List Nat))
  | 0, stk => .ok ([], stk)
  | n + 1, stk =>
    match popByteArray stk with
    | .error e => .error e
    | .ok (x, xs) =>
      match popN n xs with
      | .error e => .error e
      | .ok (l, rest) => .ok (x :: l, rest)

/-! ## Engine state, policy flags, and the external signature capability -/

/-- The policy flags consulted by the opcode handlers (the ScriptFlags bits
of the source, as independent booleans). -/
structure ScriptFlags where
  verifyMinimalData : Bool := false
  strictMultiSig : Bool := false
  verifyDERSignatures : Bool := false
  verifyStrictEncoding : Bool := false
  verifyNullFail : Bool := false
  verifyMinimalIf : Bool := false
  discourageUpgradableNops : Bool := false
  verifyCheckLockTimeVerify : Bool := false
  verifyCheckSequenceVerify : Bool := false
  deriving DecidableEq, Repr

/-- The external elliptic-curve and sighash capability, an opaque
collaborator per the spec: deterministic predicates for encoding validity,
parse success, witness-sighash failure and signature verification.
Signature verification is keyed by the raw signature bytes (hash type
included) and raw public key bytes: within a single opcode evaluation the
transaction, input index and subscript are fixed, so the digest is a
function of the hash-type byte carried by the signature. -/
structure ECOracle where
  validHashType : Nat → Bool
  strictSigEnc : List Nat → Bool
  validPubKeyEnc : List Nat → Bool
  parseDER : List Nat → Bool
  parseLax : List Nat → Bool
  parsePubKey : List Nat → Bool
  witnessHashErr : Nat → Option ScriptError
  verify : List Nat → List Nat → Bool

/-- The engine state the modelled handlers read and write: the data stack
(top at the head), the condition stack (innermost marker last, matching the
Go slice), the policy flags, the external capability, the running opcode
counter, whether a version-0 witness program is being validated, and the
fields of the transaction consulted by the locktime opcode. -/
structure Engine where
  dstack : List (List Nat)
  condStack : List Nat
  flags : ScriptFlags
  oracle : ECOracle
  numOps : Int
  witnessV0 : Bool
  txLockTime : Nat
  txInSequence : Nat

/-- Modelled from the spec: isBranchExecuting (engine.go not under src/):
the current branch executes when the condition stack is empty or its
innermost marker is True. -/
def Engine.isBranchExecuting (vm : Engine) : Bool :=
  vm.condStack.isEmpty || vm.condStack.getLastD OpCondFalse = OpCondTrue

/-- Modelled from the spec: checkHashTypeEncoding (engine.go not under
src/): only enforced under the strict-general-encoding flag; a malformed
hash type is then an error. -/
def checkHashTypeEncoding (flags : ScriptFlags) (oracle : ECOracle) (hashType : Nat) :
    Option ScriptError :=
  if ¬ flags.verifyStrictEncoding then none
  else if oracle.validHashType hashType then none
  else some .ErrInvalidSigHashType

/-- Modelled from the spec: checkSignatureEncoding (engine.go not under
src/): only enforced when a strict-DER or strict-general-encoding flag is
set; a signature that is not strictly DER-encoded is then an error. -/
def checkSignatureEncoding (flags : ScriptFlags) (oracle : ECOracle) (sig : List Nat) :
    Option ScriptError :=
  if ¬ flags.verifyDERSignatures ∧ ¬ flags.verifyStrictEncoding then none
  else if oracle.strictSigEnc sig then none
  else some .ErrSigEncoding

/-- Modelled from the spec: checkPubKeyEncoding (engine.go not under src/):
only enforced under the strict-general-encoding flag. -/
def checkPubKeyEncoding (flags : ScriptFlags) (oracle : ECOracle) (pk : List Nat) :
    Option ScriptError :=
  if ¬ flags.verifyStrictEncoding then none
  else if oracle.validPubKeyEnc pk then none
  else some .ErrPubKeyEncoding

/-- Signature parse success as the source selects it: strict DER parsing
under the strict flags, lax parsing otherwise. -/
def parseSigOk (flags : ScriptFlags) (oracle : ECOracle) (sig : List Nat) : Bool :=
  if flags.verifyStrictEncoding ∨ flags.verifyDERSignatures then oracle.parseDER sig
  else oracle.parseLax sig

/-- The witness-mode sighash computation, which can fail (the legacy path
cannot); `none` when not in witness mode or the computation succeeds. -/
def witnessHashCheck (vm : Engine) (hashType : Nat) : Option ScriptError :=
  if vm.witnessV0 then vm.oracle.witnessHashErr hashType else none

/-! ## Conditional-flow opcode handlers (source opcodeIf/opcodeNotIf/opcodeElse/opcodeEndif) -/

/-- Source popIfBool: when no version-0 witness program is active or the
minimal-if flag is unset, pop the top item as an ordinary boolean; otherwise
the popped item must be empty or the single byte 0x01. -/
def popIfBool (vm : Engine) : Except ScriptError (Bool × List (List Nat)) :=
  if ¬ vm.witnessV0 ∨ ¬ vm.flags.verifyMinimalIf then popBool vm.dstack
  else
    match popByteArray vm.dstack with
    | .error e => .error e
    | .ok (so, rest) =>
      if 1 < so.length then .error .ErrMinimalIf
      else if so.length = 1 ∧ so.headD 0 ≠ 0x01 then .error .ErrMinimalIf
      else .ok (asBool so, rest)

/-- Source opcodeIf: on an executing branch, pop a boolean and push
True/False onto the condition stack; on a non-executing branch push Skip
without touching the data stack. -/
def opcodeIf (vm : Engine) : Except ScriptError Engine :=
  if vm.isBranchExecuting then
    match popIfBool vm with
    | .error e => .error e
    | .ok (ok, stk) =>
      let condVal := if ok then OpCondTrue else OpCondFalse
      .ok { vm with dstack := stk, condStack := vm.condStack ++ [condVal] }
  else .ok { vm with condStack := vm.condStack ++ [OpCondSkip] }

/-- Source opcodeNotIf: as opcodeIf with the popped boolean negated. -/
def opcodeNotIf (vm : Engine) : Except ScriptError Engine :=
  if vm.isBranchExecuting then
    match popIfBool vm with
    | .error e => .error e
    | .ok (ok, stk) =>
      let condVal := if ¬ ok then OpCondTrue else OpCondFalse
      .ok { vm with dstack := stk, condStack := vm.condStack ++ [condVal] }
  else .ok { vm with condStack := vm.condStack ++ [OpCondSkip] }

/-- Flip of a conditional marker as opcodeElse performs it: True and False
swap, Skip is unchanged. -/
def condFlip (c : Nat) : Nat :=
  if c = OpCondTrue then OpCondFalse
  else if c = OpCondFalse then OpCondTrue
  else c

/-- Source opcodeElse: error when the condition stack is empty, otherwise
flip the innermost marker (True and False swap, Skip stays). -/
def opcodeElse (vm : Engine) : Except ScriptError Engine :=
  if vm.condStack.isEmpty then .error .ErrUnbalancedConditional
  else
    .ok { vm with
      condStack := vm.condStack.dropLast ++ [condFlip (vm.condStack.getLastD 0)] }

/-- Source opcodeEndif: error when the condition stack is empty, otherwise
remove the innermost marker. -/
def opcodeEndif (vm : Engine) : Except ScriptError Engine :=
  if vm.condStack.isEmpty then .error .ErrUnbalancedConditional
  else .ok { vm with condStack := vm.condStack.dropLast }

/-! ## Locktime verification -/

/-- Modelled from the spec: the fixed threshold distinguishing block-height
locktimes from Unix-time locktimes (txscript.LockTimeThreshold, not under
src/). -/
def LockTimeThreshold : Int := 500000000

/-- Modelled from the spec: the final-sequence sentinel
(wire.MaxTxInSequenceNum, not under src/). -/
def MaxTxInSequenceNum : Nat := 4294967295

/-- Source verifyLockTime: both locktimes must lie on the same side of the
threshold, and the script's requested locktime must not exceed the
transaction's. -/
def verifyLockTime (txLockTime threshold lockTime : Int) : Option ScriptError :=
  if ¬ ((txLockTime < threshold ∧ lockTime < threshold) ∨
        (threshold ≤ txLockTime ∧ threshold ≤ lockTime)) then
    some .ErrUnsatisfiedLockTime
  else if txLockTime < lockTime then some .ErrUnsatisfiedLockTime
  else none

/-- Source opcodeCheckLockTimeVerify: a NOP (or a discouraged-NOP error)
without its enabling flag; otherwise peeks the top item as a 5-byte-max
scriptNum, rejects negative values, compares against the transaction
locktime via verifyLockTime, and finally requires the validated input's
sequence number not be the final sentinel. -/
def opcodeCheckLockTimeVerify (vm : Engine) : Except ScriptError Engine :=
  if ¬ vm.flags.verifyCheckLockTimeVerify then
    if vm.flags.discourageUpgradableNops then .error .ErrDiscourageUpgradableNOPs
    else .ok vm
  else
    match peekByteArray vm.dstack 0 with
    | .error e => .error e
    | .ok so =>
      match makeScriptNum so vm.flags.verifyMinimalData 5 with
      | .error e => .error e
      | .ok lockTime =>
        if lockTime < 0 then .error .ErrNegativeLockTime
        else
          match verifyLockTime (vm.txLockTime : Int) LockTimeThreshold lockTime with
          | some e => .error e
          | none =>
            if vm.txInSequence = MaxTxInSequenceNum then .error .ErrUnsatisfiedLockTime
            else .ok vm

/-! ## CHECKSIG -/

/-- Source opcodeCheckSig: pop a public key and a signature; an empty
signature pushes false; the hash-type, signature and public-key encodings
are checked (erroring only under the strict flags); parse failures push
false; a failed verification with the null-fail flag set and non-empty
signature bytes is an error; otherwise the verification result is pushed. -/
def opcodeCheckSig (vm : Engine) : Except ScriptError Engine :=
  match popByteArray vm.dstack with
  | .error e => .error e
  | .ok (pkBytes, s1) =>
    match popByteArray s1 with
    | .error e => .error e
    | .ok (fullSigBytes, s2) =>
      if fullSigBytes.length < 1 then
        .ok { vm with dstack := fromBool false :: s2 }
      else
        let hashType := fullSigBytes.getLastD 0
        let sigBytes := fullSigBytes.dropLast
        match checkHashTypeEncoding vm.flags vm.oracle hashType with
        | some e => .error e
        | none =>
          match checkSignatureEncoding vm.flags vm.oracle sigBytes with
          | some e => .error e
          | none =>
            match checkPubKeyEncoding vm.flags vm.oracle pkBytes with
            | some e => .error e
            | none =>
              -- the sighash is computed here; only the witness path can fail
              match witnessHashCheck vm hashType with
              | some e => .error e
              | none =>
                if ¬ vm.oracle.parsePubKey pkBytes then
                  .ok { vm with dstack := fromBool false :: s2 }
                else if ¬ parseSigOk vm.flags vm.oracle sigBytes then
                  .ok { vm with dstack := fromBool false :: s2 }
                else
                  let valid := vm.oracle.verify fullSigBytes pkBytes
                  if ¬ valid ∧ vm.flags.verifyNullFail ∧ 0 < sigBytes.length then
                    .error .ErrNullFail
                  else .ok { vm with dstack := fromBool valid :: s2 }

/-! ## CHECKMULTISIG -/

/-- Source parsedSigInfo: a raw signature with its parse state (parsed: the
signature has been examined once; parsedOk: the parsed signature was
non-nil, i.e. parsing succeeded). -/
structure SigInfoSt where
  signature : List Nat
  parsed : Bool
  parsedOk : Bool
  deriving DecidableEq, Repr

/-- A freshly popped signature entry: not yet parsed. -/
def initSigInfo (sig : List Nat) : SigInfoSt :=
  { signature := sig, parsed := false, parsedOk := false }

/-- Modelled from the spec: the bound on public keys per CHECKMULTISIG
(MaxPubKeysPerMultiSig, not under src/; the spec gives 20). -/
def MaxPubKeysPerMultiSig : Int := 20

/-- Modelled from the spec: the per-script heavy-operation bound
(MaxOpsPerScript, not under src/; the spec gives 201). -/
def MaxOpsPerScript : Int := 201

/-- The parse-once step of the source's multisig loop: when the current
signature has not been examined yet, run the hash-type and signature
encoding checks (which can abort), record the parse outcome in the sigs
list (the source's parsedSigInfo memoization), and report it; when it has,
report the memoized outcome. -/
def msigParseOnce (flags : ScriptFlags) (oracle : ECOracle) (sigs : List SigInfoSt)
    (sigInfo : SigInfoSt) (signatureIdx : Nat) (hashType : Nat) (sigB : List Nat) :
    Except ScriptError (List SigInfoSt × Bool) :=
  if ¬ sigInfo.parsed then
    match checkHashTypeEncoding flags oracle hashType with
    | some e => .error e
    | none =>
      match checkSignatureEncoding flags oracle sigB with
      | some e => .error e
      | none =>
        let ok := parseSigOk flags oracle sigB
        .ok (sigs.set signatureIdx
          { signature := sigInfo.signature, parsed := true, parsedOk := ok }, ok)
  else .ok (sigs, sigInfo.parsedOk)

/-- Source opcodeCheckMultiSig's matching loop, with the exact counter
arithmetic of the source: `numPubKeys` (already incremented once at loop
entry), `pubKeyIdx` (starting at -1) and `numSignatures`/`signatureIdx`
are carried as integers; each iteration first advances the key pointer and
decrements the key counter, then breaks with result false when the count of
signatures still to match exceeds the key counter.  Signature parse results
are memoized through msigParseOnce exactly as the source's parsedSigInfo
does.  The fuel argument only bounds the recursion; the loop always breaks
before `keys.length + 2` iterations, which the handler supplies. -/
def msigGo (flags : ScriptFlags) (oracle : ECOracle) (witnessV0 : Bool) :
    Nat → List SigInfoSt → List (List Nat) → Int → Int → Int → Int →
    Except ScriptError Bool
  | 0, _, _, _, _, _, _ => .error .ErrInternal
  | fuel + 1, sigs, keys, numSignatures, numPubKeys, pubKeyIdx, signatureIdx =>
    if 0 < numSignatures then
      let pubKeyIdx := pubKeyIdx + 1
      let numPubKeys := numPubKeys - 1
      if numPubKeys < numSignatures then .ok false
      else
        match sigs[signatureIdx.toNat]?, keys[pubKeyIdx.toNat]? with
        | some sigInfo, some pubKey =>
          let rawSig := sigInfo.signature
          if rawSig = [] then
            msigGo flags oracle witnessV0 fuel sigs keys
              numSignatures numPubKeys pubKeyIdx signatureIdx
          else
            let hashType := rawSig.getLastD 0
            let sigB := rawSig.dropLast
            match msigParseOnce flags oracle sigs sigInfo signatureIdx.toNat
                hashType sigB with
            | .error e => .error e
            | .ok (sigs, ok) =>
              if ¬ ok then
                msigGo flags oracle witnessV0 fuel sigs keys
                  numSignatures numPubKeys pubKeyIdx signatureIdx
              else
                match checkPubKeyEncoding flags oracle pubKey with
                | some e => .error e
                | none =>
                  if ¬ oracle.parsePubKey pubKey then
                    msigGo flags oracle witnessV0 fuel sigs keys
                      numSignatures numPubKeys pubKeyIdx signatureIdx
                  else
                    match (if witnessV0 then oracle.witnessHashErr hashType else none) with
                    | some e => .error e
                    | none =>
                      if oracle.verify rawSig pubKey then
                        msigGo flags oracle witnessV0 fuel sigs keys
                          (numSignatures - 1) numPubKeys pubKeyIdx (signatureIdx + 1)
                      else
                        msigGo flags oracle witnessV0 fuel sigs keys
                          numSignatures numPubKeys pubKeyIdx signatureIdx
        | _, _ => .error .ErrInternal
    else .ok true

/-- The spec's description of the same loop, written over the remaining
signature and key lists directly: an ordered two-pointer scan in which each
iteration consumes one candidate key, a match additionally consumes the
signature, keys are never reused, and the scan fails as soon as the
remaining signatures outnumber the remaining keys (keys counted from the
current candidate on). -/
def orderedScan (flags : ScriptFlags) (oracle : ECOracle) (witnessV0 : Bool) :
    List (List Nat) → List (List Nat) → Except ScriptError Bool
  | [], _ => .ok true
  | _ :: _, [] => .ok false
  | s :: ss, k :: ks =>
    if ks.length < ss.length then .ok false
    else if s = [] then orderedScan flags oracle witnessV0 (s :: ss) ks
    else
      let hashType := s.getLastD 0
      let sigBytes := s.dropLast
      match checkHashTypeEncoding flags oracle hashType with
      | some e => .error e
      | none =>
        match checkSignatureEncoding flags oracle sigBytes with
        | some e => .error e
        | none =>
          if ¬ parseSigOk flags oracle sigBytes then
            orderedScan flags oracle witnessV0 (s :: ss) ks
          else
            match checkPubKeyEncoding flags oracle k with
            | some e => .error e
            | none =>
              if ¬ oracle.parsePubKey k then
                orderedScan flags oracle witnessV0 (s :: ss) ks
              else
                match (if witnessV0 then oracle.witnessHashErr hashType else none) with
                | some e => .error e
                | none =>
                  if oracle.verify s k then orderedScan flags oracle witnessV0 ss ks
                  else orderedScan flags oracle witnessV0 (s :: ss) ks
termination_by _sigs keys => keys.length
decreasing_by
  all_goals simp

/-- Source opcodeCheckMultiSig: pop the key count (bounded by zero and the
key maximum, charged against the operation counter), that many keys, the
signature count (bounded by zero and the key count), that many signatures,
and one additional dummy item; under the strict-multisig flag the dummy
must be empty; run the matching loop; under the null-fail flag a failed
result with any non-empty signature is an error; push the result. -/
def opcodeCheckMultiSig (vm : Engine) : Except ScriptError Engine :=
  match popInt vm.flags.verifyMinimalData vm.dstack with
  | .error e => .error e
  | .ok (numKeys, s1) =>
    let numPubKeys := scriptNumInt32 numKeys
    if numPubKeys < 0 then .error .ErrInvalidPubKeyCount
    else if MaxPubKeysPerMultiSig < numPubKeys then .error .ErrInvalidPubKeyCount
    else
      let numOps := vm.numOps + numPubKeys
      if MaxOpsPerScript < numOps then .error .ErrTooManyOperations
      else
        match popN numPubKeys.toNat s1 with
        | .error e => .error e
        | .ok (pubKeys, s2) =>
          match popInt vm.flags.verifyMinimalData s2 with
          | .error e => .error e
          | .ok (numSigs, s3) =>
            let numSignatures := scriptNumInt32 numSigs
            if numSignatures < 0 then .error .ErrInvalidSignatureCount
            else if numPubKeys < numSignatures then .error .ErrInvalidSignatureCount
            else
              match popN numSignatures.toNat s3 with
              | .error e => .error e
              | .ok (sigs, s4) =>
                match popByteArray s4 with
                | .error e => .error e
                | .ok (dummy, s5) =>
                  if vm.flags.strictMultiSig ∧ dummy ≠ [] then .error .ErrSigNullDummy
                  else
                    -- the legacy-path signature removal from the subscript only
                    -- affects the externally computed digest (oracle.verify)
                    match msigGo vm.flags vm.oracle vm.witnessV0
                        (numPubKeys.toNat + 2) (sigs.map initSigInfo) pubKeys
                        numSignatures (numPubKeys + 1) (-1) 0 with
                    | .error e => .error e
                    | .ok success =>
                      if ¬ success ∧ vm.flags.verifyNullFail ∧ sigs.any (· ≠ []) then
                        .error .ErrNullFail
                      else
                        .ok { vm with dstack := fromBool success :: s5, numOps := numOps }

/-! ## The engine step -/

/-- Modelled from the spec: the per-opcode portion of the engine's step
function (executeOpcode, engine.go not under src/), parameterized by the
dispatch into the individual opcode handlers: the disabled check and the
always-illegal check run first and unconditionally; only then is the
conditional-skip decision made, under which non-conditional opcodes on a
non-executing branch are skipped with no effect; everything else runs its
handler. -/
def executeOpcode (handler : ParsedOpcode → Engine → Except ScriptError Engine)
    (pop : ParsedOpcode) (vm : Engine) : Except ScriptError Engine :=
  if pop.isDisabled then .error .ErrDisabledOpcode
  else if pop.alwaysIllegal then .error .ErrReservedOpcode
  else if ¬ vm.isBranchExecuting ∧ ¬ pop.isConditional then .ok vm
  else handler pop vm

/-! ## Theorems -/

/-- The spec's enumeration of canonical push encodings (claim C8): empty
payloads use OpZero, single bytes 1..16 the matching small-integer opcode,
the single byte 0x81 the negate-one opcode, payloads of at most 75 bytes the
direct-push opcode equal to their length, payloads of 76..255 bytes
PUSHDATA1, and payloads of 256..65535 bytes PUSHDATA2; nothing else is
canonical. -/
def specMinimalPush (op : Nat) (data : List Nat) : Bool :=
  if data.length = 0 then op = OpZero
  else if data.length = 1 ∧ 1 ≤ data.headD 0 ∧ data.headD 0 ≤ 16 then
    op = 0x50 + data.headD 0
  else if data.length = 1 ∧ data.headD 0 = 0x81 then op = Op1Negate
  else if data.length ≤ 75 then op = data.length
  else if data.length ≤ 255 then op = OpPushData1
  else if data.length ≤ 65535 then op = OpPushData2
  else false

set_option maxHeartbeats 2000000 in
/-- C8: for payloads of at most 65535 bytes, the minimal-push check accepts
a parsed data push exactly when it uses the canonical encoding enumerated by
the spec, and rejects every other combination with a minimal-data error.
(Payloads beyond 65535 bytes are the subject of the separate oversized-push
theorem.) -/
theorem c8_minimal_push_canonical (pop : ParsedOpcode) (h : pop.data.length ≤ 65535) :
    pop.checkMinimalDataPush =
      (if specMinimalPush pop.opcodeValue pop.data then none else some .ErrMinimalData) := by
  unfold ParsedOpcode.checkMinimalDataPush specMinimalPush
  unfold OpZero Op1 Op1Negate OpPushData1 OpPushData2
  by_cases h0 : pop.data.length = 0
  · by_cases hop : pop.opcodeValue = 0
    · simp [h0, hop]
    · simp [h0, hop]
  · by_cases h1 : pop.data.length = 1
    · by_cases hb : 1 ≤ pop.data.head?.getD 0 ∧ pop.data.head?.getD 0 ≤ 16
      · have harith : (0x51 : Nat) + pop.data.head?.getD 0 - 1 =
            0x50 + pop.data.head?.getD 0 := by omega
        by_cases hop : pop.opcodeValue = 0x50 + pop.data.head?.getD 0
        · simp [h0, h1, hb.1, hb.2, harith, hop]
        · simp [h0, h1, hb.1, hb.2, harith, hop]
      · by_cases hb81 : pop.data.head?.getD 0 = 0x81
        · have hb' : ¬ (1 ≤ pop.data.head?.getD 0 ∧ pop.data.head?.getD 0 ≤ 16) := hb
          by_cases hop : pop.opcodeValue = 0x4f
          · simp [h0, h1, hb', hb81, hop]
          · simp [h0, h1, hb', hb81, hop]
        · by_cases hop : pop.opcodeValue = pop.data.length
          · simp [h0, h1, hb, hb81, hop]
          · simp [h0, h1, hb, hb81, hop]
    · have h2 : 2 ≤ pop.data.length := by omega
      by_cases h75 : pop.data.length ≤ 75
      · by_cases hop : pop.opcodeValue = pop.data.length
        · simp [h0, h1, h75, hop]
        · simp [h0, h1, h75, hop]
      · by_cases h255 : pop.data.length ≤ 255
        · by_cases hop : pop.opcodeValue = 0x4c
          · simp [h0, h1, h75, h255, hop]
          · simp [h0, h1, h75, h255, hop]
        · by_cases hop : pop.opcodeValue = 0x4d
          · simp [h0, h1, h75, h255, h, hop]
          · simp [h0, h1, h75, h255, h, hop]

/-- Witness for C8 at a concrete input: the single byte 7 pushed with the
direct-push opcode OpData1 is non-minimal (Op7 exists). -/
theorem c8_minimal_push_canonical_witness :
    (ParsedOpcode.data ⟨0x01, [7]⟩).length ≤ 65535 ∧
      ParsedOpcode.checkMinimalDataPush ⟨0x01, [7]⟩ =
        (if specMinimalPush 0x01 [7] then none else some .ErrMinimalData) :=
  ⟨by decide, c8_minimal_push_canonical ⟨0x01, [7]⟩ (by decide)⟩

/-- C10: a payload longer than 65535 bytes is never rejected by the
minimal-push check, whatever opcode carries it: the source's case analysis
ends at the PUSHDATA2 bound and falls through to the accepting return. -/
theorem c10_oversized_push_always_accepted (pop : ParsedOpcode)
    (h : 65535 < pop.data.length) : pop.checkMinimalDataPush = none := by
  unfold ParsedOpcode.checkMinimalDataPush
  rw [if_neg (by omega), if_neg (by omega), if_neg (by omega),
    if_neg (by omega), if_neg (by omega), if_neg (by omega)]

/-- Witness for C10: a 65536-byte payload carried by PUSHDATA1 (which could
never minimally carry it) is accepted. -/
theorem c10_oversized_push_always_accepted_witness :
    65535 < (List.replicate 65536 (0 : Nat)).length ∧
      ParsedOpcode.checkMinimalDataPush ⟨OpPushData1, List.replicate 65536 0⟩ = none :=
  ⟨by rw [List.length_replicate]; omega, c10_oversized_push_always_accepted
    ⟨OpPushData1, List.replicate 65536 0⟩
    (by show 65535 < (List.replicate 65536 (0 : Nat)).length
        rw [List.length_replicate]; omega)⟩

/-- Distributing an if-then-true over equality with true; used to linearize
the source's switch-style opcode recognizers. -/
theorem iteTrueBool (c : Prop) [Decidable c] (b : Bool) :
    ((if c then true else b) = true) ↔ (c ∨ b = true) := by
  by_cases h : c <;> simp [h]

/-- The fifteen disabled opcode byte values (CAT, SUBSTR, LEFT, RIGHT,
INVERT, AND, OR, XOR, 2MUL, 2DIV, MUL, DIV, MOD, LSHIFT, RSHIFT). -/
def disabledOpcodeValues : List Nat :=
  [OpCat, OpSubstr, OpLeft, OpRight, OpInvert, OpAnd, OpOr, OpXor,
   Op1Mul, Op2Div, OpMul, OpDiv, OpMod, OpLShift, OpRShift]

/-- C5: isDisabled recognizes exactly the fifteen disabled opcodes, and the
engine step fails with the disabled-opcode error whenever the program
counter reaches one of them, for every engine state — in particular for any
condition stack, since the disabled check is made before and independently
of the conditional-skip decision. -/
theorem c5_disabled_fails_even_off_branch :
    (∀ pop : ParsedOpcode,
      pop.isDisabled = true ↔ pop.opcodeValue ∈ disabledOpcodeValues) ∧
    (∀ (handler : ParsedOpcode → Engine → Except ScriptError Engine)
      (pop : ParsedOpcode) (vm : Engine), pop.isDisabled = true →
      executeOpcode handler pop vm = .error .ErrDisabledOpcode) := by
  constructor
  · intro pop
    unfold ParsedOpcode.isDisabled disabledOpcodeValues
    rw [iteTrueBool, iteTrueBool, iteTrueBool, iteTrueBool, iteTrueBool,
      iteTrueBool, iteTrueBool, iteTrueBool, iteTrueBool, iteTrueBool,
      iteTrueBool, iteTrueBool, iteTrueBool, iteTrueBool, iteTrueBool]
    simp
  · intro handler pop vm h
    unfold executeOpcode
    rw [if_pos h]

/-- Witness for C5: OpCat inside a non-executing branch (condition stack
holding a False marker) still aborts with the disabled-opcode error. -/
theorem c5_disabled_fails_even_off_branch_witness :
    (ParsedOpcode.isDisabled ⟨OpCat, []⟩ = true ↔
      OpCat ∈ disabledOpcodeValues) ∧
    executeOpcode (fun _ vm => .ok vm) ⟨OpCat, []⟩
      ⟨[], [OpCondFalse], {}, ⟨fun _ => true, fun _ => true, fun _ => true,
        fun _ => true, fun _ => true, fun _ => true, fun _ => none,
        fun _ _ => true⟩, 0, false, 0, 0⟩ = .error .ErrDisabledOpcode :=
  ⟨c5_disabled_fails_even_off_branch.1 ⟨OpCat, []⟩,
   c5_disabled_fails_even_off_branch.2 _ _ _ (by decide)⟩

/-- C6: IF and NOTIF grow the condition stack by exactly one — pushing Skip
when the surrounding branch is not executing, otherwise True or False
derived from the popped boolean —; ENDIF shrinks it by exactly one and
errors with unbalanced-conditional when it is empty; ELSE keeps the length,
flips the innermost marker between True and False only when it is not Skip,
and errors with unbalanced-conditional when the stack is empty. -/
theorem c6_condition_stack_discipline :
    (∀ vm vm' : Engine, opcodeIf vm = .ok vm' →
      vm'.condStack.length = vm.condStack.length + 1) ∧
    (∀ vm vm' : Engine, opcodeNotIf vm = .ok vm' →
      vm'.condStack.length = vm.condStack.length + 1) ∧
    (∀ vm : Engine, vm.isBranchExecuting = false →
      opcodeIf vm = .ok { vm with condStack := vm.condStack ++ [OpCondSkip] } ∧
      opcodeNotIf vm = .ok { vm with condStack := vm.condStack ++ [OpCondSkip] }) ∧
    (∀ (vm : Engine) (b : Bool) (stk : List (List Nat)),
      vm.isBranchExecuting = true → popIfBool vm = .ok (b, stk) →
      opcodeIf vm = .ok { vm with dstack := stk, condStack := vm.condStack ++ [if b then OpCondTrue else OpCondFalse] } ∧
      opcodeNotIf vm = .ok { vm with dstack := stk, condStack := vm.condStack ++ [if b then OpCondFalse else OpCondTrue] }) ∧
    (∀ vm : Engine, vm.condStack = [] →
      opcodeEndif vm = .error .ErrUnbalancedConditional ∧
      opcodeElse vm = .error .ErrUnbalancedConditional) ∧
    (∀ vm : Engine, vm.condStack ≠ [] →
      opcodeEndif vm = .ok { vm with condStack := vm.condStack.dropLast } ∧
      (∀ vm', opcodeEndif vm = .ok vm' →
        vm'.condStack.length + 1 = vm.condStack.length)) ∧
    (∀ vm : Engine, vm.condStack ≠ [] →
      opcodeElse vm = .ok { vm with condStack := vm.condStack.dropLast ++ [condFlip (vm.condStack.getLastD 0)] } ∧
      (∀ vm', opcodeElse vm = .ok vm' →
        vm'.condStack.length = vm.condStack.length ∧
        vm'.condStack.getLastD 0 = condFlip (vm.condStack.getLastD 0))) ∧
    (condFlip OpCondTrue = OpCondFalse ∧ condFlip OpCondFalse = OpCondTrue ∧
      condFlip OpCondSkip = OpCondSkip) := by
  refine ⟨?_, ?_, ?_, ?_, ?_, ?_, ?_, by decide⟩
  · intro vm vm' h
    unfold opcodeIf at h
    by_cases hb : vm.isBranchExecuting
    · rw [if_pos hb] at h
      cases hpop : popIfBool vm with
      | error e => rw [hpop] at h; exact absurd h (by simp)
      | ok p =>
        rw [hpop] at h
        cases h
        simp
    · rw [if_neg hb] at h
      cases h
      simp
  · intro vm vm' h
    unfold opcodeNotIf at h
    by_cases hb : vm.isBranchExecuting
    · rw [if_pos hb] at h
      cases hpop : popIfBool vm with
      | error e => rw [hpop] at h; exact absurd h (by simp)
      | ok p =>
        rw [hpop] at h
        cases h
        simp
    · rw [if_neg hb] at h
      cases h
      simp
  · intro vm hb
    constructor
    · unfold opcodeIf
      rw [if_neg (by simp [hb])]
    · unfold opcodeNotIf
      rw [if_neg (by simp [hb])]
  · intro vm b stk hb hpop
    constructor
    · unfold opcodeIf
      rw [if_pos hb, hpop]
    · unfold opcodeNotIf
      rw [if_pos hb, hpop]
      cases b <;> simp
  · intro vm h
    have h' : vm.condStack.isEmpty = true := by simp [h]
    constructor
    · unfold opcodeEndif
      rw [if_pos h']
    · unfold opcodeElse
      rw [if_pos h']
  · intro vm h
    have h' : ¬ vm.condStack.isEmpty = true := by simp [h]
    have he : opcodeEndif vm = .ok { vm with condStack := vm.condStack.dropLast } := by
      unfold opcodeEndif
      rw [if_neg h']
    refine ⟨he, ?_⟩
    intro vm' hv
    rw [he] at hv
    cases hv
    simp
    have hlen : vm.condStack.length ≠ 0 := fun hc => h (List.length_eq_zero.mp hc)
    omega
  · intro vm h
    have h' : ¬ vm.condStack.isEmpty = true := by simp [h]
    have he : opcodeElse vm = .ok { vm with condStack := vm.condStack.dropLast ++ [condFlip (vm.condStack.getLastD 0)] } := by
      unfold opcodeElse
      rw [if_neg h']
    refine ⟨he, ?_⟩
    intro vm' hv
    rw [he] at hv
    cases hv
    constructor
    · simp
      have hlen : vm.condStack.length ≠ 0 := fun hc => h (List.length_eq_zero.mp hc)
      omega
    · simp

/-- An everything-succeeds external capability, for concrete instances. -/
def egOracle : ECOracle :=
  ⟨fun _ => true, fun _ => true, fun _ => true, fun _ => true, fun _ => true,
   fun _ => true, fun _ => none, fun _ _ => true⟩

/-- A concrete engine around a data stack and a condition stack, with all
policy flags off, for concrete instances. -/
def egEngine (ds : List (List Nat)) (cs : List Nat) : Engine :=
  ⟨ds, cs, {}, egOracle, 0, false, 0, 0⟩

/-- Witness for C6: ENDIF on a two-marker condition stack pops exactly the
innermost marker, and ELSE on an empty condition stack errors with
unbalanced-conditional. -/
theorem c6_condition_stack_discipline_witness :
    ((egEngine [] [OpCondTrue, OpCondSkip]).condStack ≠ [] ∧
      opcodeEndif (egEngine [] [OpCondTrue, OpCondSkip]) =
        .ok { egEngine [] [OpCondTrue, OpCondSkip] with
          condStack := (egEngine [] [OpCondTrue, OpCondSkip]).condStack.dropLast }) ∧
    ((egEngine [] []).condStack = [] ∧
      opcodeElse (egEngine [] []) = .error .ErrUnbalancedConditional) :=
  ⟨⟨by decide, (c6_condition_stack_discipline.2.2.2.2.2.1
      (egEngine [] [OpCondTrue, OpCondSkip]) (by decide)).1⟩,
   ⟨rfl, (c6_condition_stack_discipline.2.2.2.2.1 (egEngine [] []) rfl).2⟩⟩

/-- The mismatched-threshold case of verifyLockTime. -/
theorem verifyLockTime_mismatch (t θ l : Int)
    (h : ¬ ((t < θ ∧ l < θ) ∨ (θ ≤ t ∧ θ ≤ l))) :
    verifyLockTime t θ l = some .ErrUnsatisfiedLockTime := by
  unfold verifyLockTime
  rw [if_pos h]

/-- The exceeding-locktime case of verifyLockTime. -/
theorem verifyLockTime_exceeds (t θ l : Int)
    (h : (t < θ ∧ l < θ) ∨ (θ ≤ t ∧ θ ≤ l)) (hgt : t < l) :
    verifyLockTime t θ l = some .ErrUnsatisfiedLockTime := by
  unfold verifyLockTime
  rw [if_neg (fun hn => hn h), if_pos hgt]

/-- The accepting case of verifyLockTime. -/
theorem verifyLockTime_accepts (t θ l : Int)
    (h : (t < θ ∧ l < θ) ∨ (θ ≤ t ∧ θ ≤ l)) (hle : l ≤ t) :
    verifyLockTime t θ l = none := by
  unfold verifyLockTime
  rw [if_neg (fun hn => hn h), if_neg (by omega)]

/-- The CLTV handler once the flag test, the peek and the scriptNum decode
have been discharged. -/
theorem cltv_step (vm : Engine) (so : List Nat) (lockTime : Int)
    (hflag : vm.flags.verifyCheckLockTimeVerify = true)
    (hpeek : vm.dstack[0]? = some so)
    (hnum : makeScriptNum so vm.flags.verifyMinimalData 5 = .ok lockTime) :
    opcodeCheckLockTimeVerify vm =
      (if lockTime < 0 then .error .ErrNegativeLockTime
       else
        match verifyLockTime (vm.txLockTime : Int) LockTimeThreshold lockTime with
        | some e => .error e
        | none =>
          if vm.txInSequence = MaxTxInSequenceNum then .error .ErrUnsatisfiedLockTime
          else .ok vm) := by
  unfold opcodeCheckLockTimeVerify peekByteArray
  rw [hflag, hpeek]
  simp [hnum]

/-- C7: with its enabling flag set, CHECKLOCKTIMEVERIFY reads (without
popping) the top stack item as a 5-byte-max scriptNum; a negative value is
a negative-locktime error; locktimes on opposite sides of the
block-height/Unix-time threshold, or a stack locktime exceeding the
transaction's, are unsatisfied-locktime errors; an input whose sequence is
the final sentinel is an unsatisfied-locktime error; and on success the
engine — in particular the data stack — is returned unchanged. -/
theorem c7_cltv_behavior (vm : Engine) (so : List Nat) (lockTime : Int)
    (hflag : vm.flags.verifyCheckLockTimeVerify = true)
    (hpeek : vm.dstack[0]? = some so)
    (hnum : makeScriptNum so vm.flags.verifyMinimalData 5 = .ok lockTime) :
    (lockTime < 0 → opcodeCheckLockTimeVerify vm = .error .ErrNegativeLockTime) ∧
    (0 ≤ lockTime →
      ¬ (((vm.txLockTime : Int) < LockTimeThreshold ∧ lockTime < LockTimeThreshold) ∨
         (LockTimeThreshold ≤ (vm.txLockTime : Int) ∧ LockTimeThreshold ≤ lockTime)) →
      opcodeCheckLockTimeVerify vm = .error .ErrUnsatisfiedLockTime) ∧
    (0 ≤ lockTime →
      (((vm.txLockTime : Int) < LockTimeThreshold ∧ lockTime < LockTimeThreshold) ∨
         (LockTimeThreshold ≤ (vm.txLockTime : Int) ∧ LockTimeThreshold ≤ lockTime)) →
      (vm.txLockTime : Int) < lockTime →
      opcodeCheckLockTimeVerify vm = .error .ErrUnsatisfiedLockTime) ∧
    (0 ≤ lockTime →
      (((vm.txLockTime : Int) < LockTimeThreshold ∧ lockTime < LockTimeThreshold) ∨
         (LockTimeThreshold ≤ (vm.txLockTime : Int) ∧ LockTimeThreshold ≤ lockTime)) →
      lockTime ≤ (vm.txLockTime : Int) → vm.txInSequence = MaxTxInSequenceNum →
      opcodeCheckLockTimeVerify vm = .error .ErrUnsatisfiedLockTime) ∧
    (0 ≤ lockTime →
      (((vm.txLockTime : Int) < LockTimeThreshold ∧ lockTime < LockTimeThreshold) ∨
         (LockTimeThreshold ≤ (vm.txLockTime : Int) ∧ LockTimeThreshold ≤ lockTime)) →
      lockTime ≤ (vm.txLockTime : Int) → vm.txInSequence ≠ MaxTxInSequenceNum →
      opcodeCheckLockTimeVerify vm = .ok vm) := by
  refine ⟨?_, ?_, ?_, ?_, ?_⟩
  · intro hneg
    rw [cltv_step vm so lockTime hflag hpeek hnum, if_pos hneg]
  · intro hpos hmis
    rw [cltv_step vm so lockTime hflag hpeek hnum, if_neg (by omega),
      verifyLockTime_mismatch _ _ _ hmis]
  · intro hpos hsame hgt
    rw [cltv_step vm so lockTime hflag hpeek hnum, if_neg (by omega),
      verifyLockTime_exceeds _ _ _ hsame hgt]
  · intro hpos hsame hle hseq
    rw [cltv_step vm so lockTime hflag hpeek hnum, if_neg (by omega),
      verifyLockTime_accepts _ _ _ hsame hle]
    simp [hseq]
  · intro hpos hsame hle hseq
    rw [cltv_step vm so lockTime hflag hpeek hnum, if_neg (by omega),
      verifyLockTime_accepts _ _ _ hsame hle]
    simp [hseq]

/-- The concrete engine of the C7 witness: top of stack 100, transaction
locktime 200, CLTV flag on, all else defaulted. -/
def egCltvEngine : Engine :=
  { egEngine [[100]] [] with
    flags := { verifyCheckLockTimeVerify := true }, txLockTime := 200 }

/-- Witness for C7: with the flag on, a stack locktime of 100 against a
transaction locktime of 200 (both below the threshold) and a non-final
input sequence succeeds and leaves the engine unchanged. -/
theorem c7_cltv_behavior_witness :
    egCltvEngine.flags.verifyCheckLockTimeVerify = true ∧
    opcodeCheckLockTimeVerify egCltvEngine = .ok egCltvEngine :=
  ⟨rfl,
   (c7_cltv_behavior egCltvEngine [100] 100 rfl rfl rfl).2.2.2.2 (by decide)
     (Or.inl (by constructor <;> decide)) (by decide) (by decide)⟩

/-- The CHECKSIG handler once the two pops have been resolved against a
stack of the form pubkey, signature, rest. -/
theorem checkSig_step (vm : Engine) (pk sig : List Nat) (rest : List (List Nat))
    (hstack : vm.dstack = pk :: sig :: rest) :
    opcodeCheckSig vm =
      (if sig.length < 1 then .ok { vm with dstack := fromBool false :: rest }
       else
        match checkHashTypeEncoding vm.flags vm.oracle (sig.getLastD 0) with
        | some e => .error e
        | none =>
          match checkSignatureEncoding vm.flags vm.oracle sig.dropLast with
          | some e => .error e
          | none =>
            match checkPubKeyEncoding vm.flags vm.oracle pk with
            | some e => .error e
            | none =>
              match witnessHashCheck vm (sig.getLastD 0) with
              | some e => .error e
              | none =>
                if ¬ vm.oracle.parsePubKey pk then
                  .ok { vm with dstack := fromBool false :: rest }
                else if ¬ parseSigOk vm.flags vm.oracle sig.dropLast then
                  .ok { vm with dstack := fromBool false :: rest }
                else
                  if ¬ vm.oracle.verify sig pk ∧ vm.flags.verifyNullFail ∧
                      0 < sig.dropLast.length then
                    .error .ErrNullFail
                  else .ok { vm with dstack := fromBool (vm.oracle.verify sig pk) :: rest }) := by
  unfold opcodeCheckSig popByteArray
  rw [hstack]

/-- Without the strict-DER and strict-general-encoding flags, all three
encoding checks accept unconditionally (they are policy-gated). -/
theorem noStrict_checks_none (flags : ScriptFlags) (oracle : ECOracle)
    (h1 : flags.verifyStrictEncoding = false) (h2 : flags.verifyDERSignatures = false) :
    (∀ ht, checkHashTypeEncoding flags oracle ht = none) ∧
    (∀ sig, checkSignatureEncoding flags oracle sig = none) ∧
    (∀ pk, checkPubKeyEncoding flags oracle pk = none) := by
  refine ⟨fun ht => ?_, fun sig => ?_, fun pk => ?_⟩
  · unfold checkHashTypeEncoding
    simp [h1]
  · unfold checkSignatureEncoding
    simp [h1, h2]
  · unfold checkPubKeyEncoding
    simp [h1]

/-- C3: CHECKSIG pushes false and succeeds on an empty popped signature;
with a strict-encoding policy flag active, a malformed hash type, signature
encoding or public-key encoding aborts evaluation with that error (and in
particular pushes nothing); without the strict flags those checks cannot
fire and a signature or public key that fails to parse instead results in a
false push and a normal return. -/
theorem c3_checksig_encoding_paths (vm : Engine) (pk sig : List Nat)
    (rest : List (List Nat)) (hstack : vm.dstack = pk :: sig :: rest) :
    (sig = [] → opcodeCheckSig vm = .ok { vm with dstack := fromBool false :: rest }) ∧
    (∀ e, sig ≠ [] →
      checkHashTypeEncoding vm.flags vm.oracle (sig.getLastD 0) = some e →
      opcodeCheckSig vm = .error e) ∧
    (∀ e, sig ≠ [] →
      checkHashTypeEncoding vm.flags vm.oracle (sig.getLastD 0) = none →
      checkSignatureEncoding vm.flags vm.oracle sig.dropLast = some e →
      opcodeCheckSig vm = .error e) ∧
    (∀ e, sig ≠ [] →
      checkHashTypeEncoding vm.flags vm.oracle (sig.getLastD 0) = none →
      checkSignatureEncoding vm.flags vm.oracle sig.dropLast = none →
      checkPubKeyEncoding vm.flags vm.oracle pk = some e →
      opcodeCheckSig vm = .error e) ∧
    (sig ≠ [] →
      vm.flags.verifyStrictEncoding = false → vm.flags.verifyDERSignatures = false →
      witnessHashCheck vm (sig.getLastD 0) = none →
      (vm.oracle.parsePubKey pk = false ∨
        parseSigOk vm.flags vm.oracle sig.dropLast = false) →
      opcodeCheckSig vm = .ok { vm with dstack := fromBool false :: rest }) := by
  have hlen : sig ≠ [] → ¬ sig.length < 1 := by
    intro h
    have : sig.length ≠ 0 := fun hc => h (List.length_eq_zero.mp hc)
    omega
  refine ⟨?_, ?_, ?_, ?_, ?_⟩
  · intro hsig
    rw [checkSig_step vm pk sig rest hstack, if_pos (by simp [hsig])]
  · intro e hsig hcht
    rw [checkSig_step vm pk sig rest hstack, if_neg (hlen hsig), hcht]
  · intro e hsig hcht hcse
    rw [checkSig_step vm pk sig rest hstack, if_neg (hlen hsig), hcht, hcse]
  · intro e hsig hcht hcse hcpk
    rw [checkSig_step vm pk sig rest hstack, if_neg (hlen hsig), hcht, hcse, hcpk]
  · intro hsig hse hder hwit hfail
    obtain ⟨hcht, hcse, hcpk⟩ := noStrict_checks_none vm.flags vm.oracle hse hder
    rw [checkSig_step vm pk sig rest hstack, if_neg (hlen hsig), hcht, hcse, hcpk, hwit]
    rcases hfail with h | h
    · simp [h]
    · by_cases hpk : vm.oracle.parsePubKey pk
      · simp [hpk, h]
      · simp [hpk]

/-- Witness for C3: an empty signature under a failing verifier pushes
false (the empty byte array) above the remaining stack. -/
theorem c3_checksig_encoding_paths_witness :
    (egEngine [[5], [], [7]] []).dstack = [5] :: [] :: [[7]] ∧
    opcodeCheckSig (egEngine [[5], [], [7]] []) =
      .ok { egEngine [[5], [], [7]] [] with dstack := fromBool false :: [[7]] } :=
  ⟨rfl, (c3_checksig_encoding_paths (egEngine [[5], [], [7]] []) [5] [] [[7]] rfl).1 rfl⟩

/-- Popping exactly the first block of a structured stack. -/
theorem popN_append (A rest : List (List Nat)) :
    popN A.length (A ++ rest) = .ok (A, rest) := by
  induction A with
  | nil => rfl
  | cons x xs ih =>
    show popN (xs.length + 1) (x :: (xs ++ rest)) = .ok (x :: xs, rest)
    unfold popN popByteArray
    simp [ih]

/-- The int32 clamp is the identity on the multisig count range. -/
theorem scriptNumInt32_id (n : Int) (h1 : -2147483648 ≤ n) (h2 : n ≤ 2147483647) :
    scriptNumInt32 n = n := by
  unfold scriptNumInt32
  rw [if_neg (by omega), if_neg (by omega)]

/-- The CHECKMULTISIG handler once the argument-popping phase has been
resolved against a stack of the form key-count, keys, signature-count,
signatures, dummy, rest (with in-range counts): what remains is the strict
dummy check, the matching loop, the null-fail check and the result push.
The dummy value d no longer occurs anywhere beyond the strict check. -/
theorem checkMultiSig_step (vm : Engine) (nB mB d : List Nat)
    (keys sigs rest : List (List Nat)) (n m : Int)
    (hstack : vm.dstack = nB :: (keys ++ mB :: (sigs ++ d :: rest)))
    (hn : makeScriptNum nB vm.flags.verifyMinimalData 4 = .ok n)
    (hn0 : 0 ≤ n) (hn20 : n ≤ MaxPubKeysPerMultiSig)
    (hklen : (keys.length : Int) = n)
    (hops : vm.numOps + n ≤ MaxOpsPerScript)
    (hm : makeScriptNum mB vm.flags.verifyMinimalData 4 = .ok m)
    (hm0 : 0 ≤ m) (hmn : m ≤ n)
    (hslen : (sigs.length : Int) = m) :
    opcodeCheckMultiSig vm =
      (if vm.flags.strictMultiSig ∧ d ≠ [] then .error .ErrSigNullDummy
       else
        match msigGo vm.flags vm.oracle vm.witnessV0 (n.toNat + 2)
            (sigs.map initSigInfo) keys m (n + 1) (-1) 0 with
        | .error e => .error e
        | .ok success =>
          if ¬ success ∧ vm.flags.verifyNullFail ∧ sigs.any (· ≠ []) then
            .error .ErrNullFail
          else .ok { vm with dstack := fromBool success :: rest, numOps := vm.numOps + n }) := by
  have hm32 : scriptNumInt32 m = m := by
    unfold MaxPubKeysPerMultiSig at hn20
    exact scriptNumInt32_id m (by omega) (by omega)
  have hn32 : scriptNumInt32 n = n := by
    unfold MaxPubKeysPerMultiSig at hn20
    exact scriptNumInt32_id n (by omega) (by omega)
  have hkeysl : keys.length = n.toNat := by omega
  have hsigsl : sigs.length = m.toNat := by omega
  unfold opcodeCheckMultiSig popInt popByteArray
  rw [hstack]
  simp only [hn, hn32, hm, hm32]
  rw [if_neg (by omega), if_neg (by omega), if_neg (by omega)]
  rw [show popN n.toNat (keys ++ (mB :: (sigs ++ d :: rest))) = .ok (keys, mB :: (sigs ++ d :: rest)) from hkeysl ▸ popN_append keys (mB :: (sigs ++ d :: rest))]
  simp only [hm, hm32]
  rw [if_neg (by omega), if_neg (by omega)]
  rw [show popN m.toNat (sigs ++ d :: rest) = .ok (sigs, d :: rest) from hsigsl ▸ popN_append sigs (d :: rest)]

/-- C2: CHECKMULTISIG pops exactly one stack item beyond the key count, the
keys, the signature count and the signatures — for every in-range m and n:
whenever the handler returns successfully the stack below those arguments
and the single dummy is untouched under the pushed result; with the
strict-multisig flag a non-empty dummy is the null-dummy error; and without
the flag the result is an expression in which the dummy value does not
occur at all, so any dummy is accepted. -/
theorem c2_multisig_dummy_pop (vm : Engine) (nB mB d : List Nat)
    (keys sigs rest : List (List Nat)) (n m : Int)
    (hstack : vm.dstack = nB :: (keys ++ mB :: (sigs ++ d :: rest)))
    (hn : makeScriptNum nB vm.flags.verifyMinimalData 4 = .ok n)
    (hn0 : 0 ≤ n) (hn20 : n ≤ MaxPubKeysPerMultiSig)
    (hklen : (keys.length : Int) = n)
    (hops : vm.numOps + n ≤ MaxOpsPerScript)
    (hm : makeScriptNum mB vm.flags.verifyMinimalData 4 = .ok m)
    (hm0 : 0 ≤ m) (hmn : m ≤ n)
    (hslen : (sigs.length : Int) = m) :
    (vm.flags.strictMultiSig = true → d ≠ [] →
      opcodeCheckMultiSig vm = .error .ErrSigNullDummy) ∧
    (∀ vm', opcodeCheckMultiSig vm = .ok vm' →
      ∃ b, vm' = { vm with dstack := fromBool b :: rest, numOps := vm.numOps + n }) ∧
    (vm.flags.strictMultiSig = false →
      opcodeCheckMultiSig vm =
        (match msigGo vm.flags vm.oracle vm.witnessV0 (n.toNat + 2)
            (sigs.map initSigInfo) keys m (n + 1) (-1) 0 with
        | .error e => .error e
        | .ok success =>
          if ¬ success ∧ vm.flags.verifyNullFail ∧ sigs.any (· ≠ []) then
            .error .ErrNullFail
          else .ok { vm with dstack := fromBool success :: rest, numOps := vm.numOps + n })) := by
  have hstep := checkMultiSig_step vm nB mB d keys sigs rest n m hstack hn hn0 hn20
    hklen hops hm hm0 hmn hslen
  refine ⟨?_, ?_, ?_⟩
  · intro hflag hd
    rw [hstep, if_pos ⟨hflag, hd⟩]
  · intro vm' h
    rw [hstep] at h
    split at h
    · exact absurd h (by simp)
    · split at h
      · exact absurd h (by simp)
      · split at h
        · exact absurd h (by simp)
        · exact ⟨_, (Except.ok.injEq _ _ ▸ h).symm⟩
  · intro hflag
    rw [hstep, if_neg (by simp [hflag])]

/-- The concrete 1-of-1 stack of the C2 witness: key count 1, one key,
signature count 1, one signature, empty dummy, and a sentinel below. -/
def egMsEngine : Engine := egEngine [[1], [10], [1], [10, 1], [], [99]] []

/-- The same stack with a non-empty dummy, under the strict-multisig flag. -/
def egMsStrict : Engine :=
  { egEngine [[1], [10], [1], [10, 1], [7], [99]] [] with
    flags := { strictMultiSig := true } }

/-- Witness for C2: on the strict engine the non-empty dummy is the
null-dummy error; on the plain engine the handler returns with exactly the
sentinel left under the pushed result. -/
theorem c2_multisig_dummy_pop_witness :
    opcodeCheckMultiSig egMsStrict = .error .ErrSigNullDummy ∧
    ∃ b, ({ egMsEngine with dstack := [[1], [99]], numOps := 1 } : Engine) =
      { egMsEngine with dstack := fromBool b :: [[99]], numOps := egMsEngine.numOps + 1 } :=
  ⟨(c2_multisig_dummy_pop egMsStrict [1] [1] [7] [[10]] [[10, 1]] [[99]] 1 1
      rfl rfl (by decide) (by decide) rfl (by decide) rfl (by decide) (by decide)
      rfl).1 rfl (by decide),
   (c2_multisig_dummy_pop egMsEngine [1] [1] [] [[10]] [[10, 1]] [[99]] 1 1
      rfl rfl (by decide) (by decide) rfl (by decide) rfl (by decide) (by decide)
      rfl).2.1 _ rfl⟩

/-- C4: with the null-fail flag set, a CHECKSIG that reaches verification
and fails with non-empty signature bytes (hash-type byte excluded) is the
null-fail error instead of a false push, and a CHECKMULTISIG whose loop
result is failure is the null-fail error unless every supplied signature is
empty; with the flag unset the same failures push false and return
normally. -/
theorem c4_nullfail_policy :
    (∀ (vm : Engine) (pk sig : List Nat) (rest : List (List Nat)),
      vm.dstack = pk :: sig :: rest → sig ≠ [] →
      checkHashTypeEncoding vm.flags vm.oracle (sig.getLastD 0) = none →
      checkSignatureEncoding vm.flags vm.oracle sig.dropLast = none →
      checkPubKeyEncoding vm.flags vm.oracle pk = none →
      witnessHashCheck vm (sig.getLastD 0) = none →
      vm.oracle.parsePubKey pk = true →
      parseSigOk vm.flags vm.oracle sig.dropLast = true →
      vm.oracle.verify sig pk = false → sig.dropLast ≠ [] →
      (vm.flags.verifyNullFail = true → opcodeCheckSig vm = .error .ErrNullFail) ∧
      (vm.flags.verifyNullFail = false →
        opcodeCheckSig vm = .ok { vm with dstack := fromBool false :: rest })) ∧
    (∀ (vm : Engine) (nB mB d : List Nat) (keys sigs rest : List (List Nat)) (n m : Int),
      vm.dstack = nB :: (keys ++ mB :: (sigs ++ d :: rest)) →
      makeScriptNum nB vm.flags.verifyMinimalData 4 = .ok n →
      0 ≤ n → n ≤ MaxPubKeysPerMultiSig → (keys.length : Int) = n →
      vm.numOps + n ≤ MaxOpsPerScript →
      makeScriptNum mB vm.flags.verifyMinimalData 4 = .ok m →
      0 ≤ m → m ≤ n → (sigs.length : Int) = m → d = [] →
      msigGo vm.flags vm.oracle vm.witnessV0 (n.toNat + 2)
        (sigs.map initSigInfo) keys m (n + 1) (-1) 0 = .ok false →
      (vm.flags.verifyNullFail = true → sigs.any (· ≠ []) = true →
        opcodeCheckMultiSig vm = .error .ErrNullFail) ∧
      (vm.flags.verifyNullFail = true → sigs.any (· ≠ []) = false →
        opcodeCheckMultiSig vm =
          .ok { vm with dstack := fromBool false :: rest, numOps := vm.numOps + n }) ∧
      (vm.flags.verifyNullFail = false →
        opcodeCheckMultiSig vm =
          .ok { vm with dstack := fromBool false :: rest, numOps := vm.numOps + n })) := by
  constructor
  · intro vm pk sig rest hstack hsig hcht hcse hcpk hwit hppk hpsig hver hnonempty
    have hlen : ¬ sig.length < 1 := by
      have : sig.length ≠ 0 := fun hc => hsig (List.length_eq_zero.mp hc)
      omega
    have hdl : 0 < sig.dropLast.length := by
      have : sig.dropLast.length ≠ 0 := fun hc => hnonempty (List.length_eq_zero.mp hc)
      omega
    have hstep := checkSig_step vm pk sig rest hstack
    rw [hstep, if_neg hlen, hcht, hcse, hcpk, hwit]
    have hdl2 : 1 < sig.length := by
      have := List.length_dropLast sig
      omega
    constructor
    · intro hflag
      simp [hppk, hpsig, hver, hflag, hdl2]
    · intro hflag
      simp [hppk, hpsig, hver, hflag]
  · intro vm nB mB d keys sigs rest n m hstack hn hn0 hn20 hklen hops hm hm0 hmn
      hslen hd hrun
    have hstep := checkMultiSig_step vm nB mB d keys sigs rest n m hstack hn hn0
      hn20 hklen hops hm hm0 hmn hslen
    rw [hstep, if_neg (by simp [hd])]
    simp only [hrun]
    refine ⟨?_, ?_, ?_⟩
    · intro hflag hany
      rw [if_pos ⟨by simp, hflag, hany⟩]
    · intro hflag hany
      rw [if_neg (by simp only [hany]; simp)]
    · intro hflag
      rw [if_neg (by simp [hflag])]

/-- A failing verifier built over the everything-succeeds capability. -/
def egOracleFail : ECOracle := { egOracle with verify := fun _ _ => false }

/-- The concrete CHECKSIG engine of the C4 witness: null-fail on, failing
verifier, stack holding a public key, a two-byte signature and a sentinel. -/
def egNfSig : Engine :=
  { egEngine [[5], [9, 1], [7]] [] with
    flags := { verifyNullFail := true }, oracle := egOracleFail }

/-- The concrete CHECKMULTISIG engine of the C4 witness: the 1-of-1 stack
with an empty dummy, null-fail on, failing verifier. -/
def egNfMs : Engine :=
  { egEngine [[1], [10], [1], [10, 1], [], [99]] [] with
    flags := { verifyNullFail := true }, oracle := egOracleFail }

/-- Witness for C4: the failing CHECKSIG with a non-empty signature errors
with null-fail, and so does the failing CHECKMULTISIG whose one supplied
signature is non-empty. -/
theorem c4_nullfail_policy_witness :
    opcodeCheckSig egNfSig = .error .ErrNullFail ∧
    opcodeCheckMultiSig egNfMs = .error .ErrNullFail :=
  ⟨(c4_nullfail_policy.1 egNfSig [5] [9, 1] [[7]] rfl (by decide) (by decide)
      (by decide) (by decide) (by decide) (by decide) (by decide) (by decide)
      (by decide)).1 rfl,
   (c4_nullfail_policy.2 egNfMs [1] [1] [] [[10]] [[10, 1]] [[99]] 1 1 rfl rfl
      (by decide) (by decide) rfl (by decide) rfl (by decide) (by decide) rfl
      rfl rfl).1 rfl (by decide)⟩
/-- opcodeLength is 1 outside the push ranges. -/
theorem opcodeLength_one (b : Nat) (h : b = 0 ∨ 79 ≤ b) : opcodeLength b = 1 := by
  unfold opcodeLength
  rcases h with h | h
  · rw [if_pos h]
  · rw [if_neg (by omega), if_neg (by omega), if_neg (by unfold OpPushData1; omega),
      if_neg (by unfold OpPushData2; omega), if_neg (by unfold OpPushData4; omega)]

/-- opcodeLength of a direct data push. -/
theorem opcodeLength_data (b : Nat) (h1 : 1 ≤ b) (h2 : b ≤ 75) :
    opcodeLength b = (b : Int) + 1 := by
  unfold opcodeLength
  rw [if_neg (by omega), if_pos h2]

/-- Serialization of a parsed opcode with no push data. -/
theorem bytesEnc_one (b : Nat) (h : opcodeLength b = 1) :
    ParsedOpcode.bytesEnc ⟨b, []⟩ = .ok [b] := by
  unfold ParsedOpcode.bytesEnc
  simp [h]

/-- Serialization of a direct data push. -/
theorem bytesEnc_data (b : Nat) (h1 : 1 ≤ b) (h2 : b ≤ 75) (data : List Nat)
    (hd : data.length = b) :
    ParsedOpcode.bytesEnc ⟨b, data⟩ = .ok (b :: data) := by
  unfold ParsedOpcode.bytesEnc
  rw [opcodeLength_data b h1 h2]
  rw [if_neg (by omega), if_pos (by omega), if_pos (by simp [hd]; omega)]

/-- Serialization of a PUSHDATA1 parsed opcode. -/
theorem bytesEnc_pd1 (data : List Nat) (h : data.length < 256) :
    ParsedOpcode.bytesEnc ⟨76, data⟩ = .ok (76 :: data.length :: data) := by
  unfold ParsedOpcode.bytesEnc
  rw [show opcodeLength 76 = -1 from by decide]
  rw [if_neg (by omega), if_neg (by omega), if_pos rfl]
  rw [if_pos (by simp [Nat.mod_eq_of_lt h])]
  rw [Nat.mod_eq_of_lt h]
  rfl

/-- Serialization of a PUSHDATA2 parsed opcode. -/
theorem bytesEnc_pd2 (data : List Nat) (h : data.length < 65536) :
    ParsedOpcode.bytesEnc ⟨77, data⟩ =
      .ok (77 :: data.length % 256 :: data.length / 256 % 256 :: data) := by
  unfold ParsedOpcode.bytesEnc
  rw [show opcodeLength 77 = -2 from by decide]
  rw [if_neg (by omega), if_neg (by omega), if_neg (by omega), if_pos rfl]
  rw [if_pos (by simp [Nat.mod_eq_of_lt h])]
  rfl

/-- Serialization of a PUSHDATA4 parsed opcode. -/
theorem bytesEnc_pd4 (data : List Nat) (h : data.length < 4294967296) :
    ParsedOpcode.bytesEnc ⟨78, data⟩ =
      .ok (78 :: data.length % 256 :: data.length / 256 % 256 ::
        data.length / 65536 % 256 :: data.length / 16777216 % 256 :: data) := by
  unfold ParsedOpcode.bytesEnc
  rw [show opcodeLength 78 = -4 from by decide]
  rw [if_neg (by omega), if_neg (by omega), if_neg (by omega), if_neg (by omega)]
  rw [if_pos (by simp [Nat.mod_eq_of_lt h])]
  rfl
set_option maxHeartbeats 1000000 in
/-- Round-trip core, by strong induction on the script length: parsing a
byte script and re-serializing every parsed opcode reproduces the script. -/
theorem parse_unparse_bounded :
    ∀ (k : Nat) (s : List Nat), s.length ≤ k → (∀ x ∈ s, x < 256) →
      ∀ pops, parseScript s = .ok pops → unparseScript pops = .ok s := by
  intro k
  induction k with
  | zero =>
    intro s hlen hb pops h
    have hs : s = [] := List.length_eq_zero.mp (by omega)
    subst hs
    rw [parseScript.eq_def] at h
    simp at h
    subst h
    rfl
  | succ k ih =>
    intro s hlen hb pops h
    cases s with
    | nil =>
      rw [parseScript.eq_def] at h
      simp at h
      subst h
      rfl
    | cons b rest =>
      have hbyte : b < 256 := hb b (List.mem_cons_self b rest)
      have hrb : ∀ x ∈ rest, x < 256 := fun x hx => hb x (List.mem_cons_of_mem _ hx)
      have hrlen : rest.length ≤ k := by
        simp at hlen
        omega
      have hcases : b = 0 ∨ (1 ≤ b ∧ b ≤ 75) ∨ b = 76 ∨ b = 77 ∨ b = 78 ∨ 79 ≤ b := by
        omega
      rw [parseScript.eq_def] at h
      simp only [] at h
      rcases hcases with h0 | hdp | h76 | h77 | h78 | h79
      -- single-byte opcode, value 0
      · have hl : opcodeLength b = 1 := opcodeLength_one b (Or.inl h0)
        simp only [hl, if_pos rfl] at h
        cases hrec : parseScript rest with
        | error e => rw [hrec] at h; exact absurd h (by simp)
        | ok ps =>
          rw [hrec] at h
          simp at h
          subst h
          have hun := ih rest hrlen hrb ps hrec
          unfold unparseScript
          rw [bytesEnc_one b hl, hun]
          try rfl
      -- direct push of 1..75 bytes
      · have hl : opcodeLength b = (b : Int) + 1 := opcodeLength_data b hdp.1 hdp.2
        simp only [hl] at h
        rw [if_neg (by omega), if_pos (by omega)] at h
        have hnn : ((b : Int) + 1).toNat - 1 = b := by omega
        rw [hnn] at h
        by_cases hr : rest.length < b
        · rw [if_pos hr] at h
          exact absurd h (by simp)
        · rw [if_neg hr] at h
          cases hrec : parseScript (rest.drop b) with
          | error e => rw [hrec] at h; exact absurd h (by simp)
          | ok ps =>
            rw [hrec] at h
            simp at h
            subst h
            have hun := ih (rest.drop b)
              (by rw [List.length_drop]; omega)
              (fun x hx => hrb x (List.mem_of_mem_drop hx)) ps hrec
            unfold unparseScript
            rw [bytesEnc_data b hdp.1 hdp.2 (rest.take b)
              (by rw [List.length_take]; omega), hun]
            show Except.ok ((b :: rest.take b) ++ rest.drop b) = _
            rw [List.cons_append, List.take_append_drop]
      -- PUSHDATA1
      · subst h76
        rw [show opcodeLength 76 = -1 from by decide] at h
        rw [if_neg (by decide), if_neg (by decide)] at h
        by_cases hr : rest.length < ((-(-1 : Int)).toNat)
        · rw [if_pos hr] at h
          exact absurd h (by simp)
        · rw [if_neg hr] at h
          obtain ⟨l0, body, rfl⟩ : ∃ l0 body, rest = l0 :: body := by
            cases rest with
            | nil => simp at hr
            | cons x xs => exact ⟨x, xs, rfl⟩
          have hl0 : l0 < 256 := hrb l0 (List.mem_cons_self _ _)
          rw [show ((l0 :: body).take ((-(-1 : Int)).toNat)) = [l0] from rfl,
            show leNat [l0] = l0 from by simp [leNat],
            show ((l0 :: body).drop ((-(-1 : Int)).toNat)) = body from rfl] at h
          by_cases hbl : body.length < l0
          · rw [if_pos hbl] at h
            exact absurd h (by simp)
          · rw [if_neg hbl] at h
            cases hrec : parseScript (body.drop l0) with
            | error e => rw [hrec] at h; exact absurd h (by simp)
            | ok ps =>
              rw [hrec] at h
              simp at h
              subst h
              have hun := ih (body.drop l0)
                (by simp at hrlen; rw [List.length_drop]; omega)
                (fun x hx => hrb x (List.mem_cons_of_mem _ (List.mem_of_mem_drop hx)))
                ps hrec
              have htl : (body.take l0).length = l0 := by
                rw [List.length_take]
                omega
              unfold unparseScript
              rw [bytesEnc_pd1 (body.take l0) (by omega), hun, htl]
              show Except.ok ((76 :: l0 :: body.take l0) ++ body.drop l0) = _
              simp [List.take_append_drop]
      -- PUSHDATA2
      · subst h77
        rw [show opcodeLength 77 = -2 from by decide] at h
        rw [if_neg (by decide), if_neg (by decide)] at h
        by_cases hr : rest.length < ((-(-2 : Int)).toNat)
        · rw [if_pos hr] at h
          exact absurd h (by simp)
        · rw [if_neg hr] at h
          obtain ⟨l0, l1, body, rfl⟩ : ∃ l0 l1 body, rest = l0 :: l1 :: body := by
            cases rest with
            | nil => simp at hr
            | cons x xs =>
              cases xs with
              | nil => simp at hr
              | cons y ys => exact ⟨x, y, ys, rfl⟩
          have hl0 : l0 < 256 := hrb l0 (List.mem_cons_self _ _)
          have hl1 : l1 < 256 := hrb l1 (List.mem_cons_of_mem _ (List.mem_cons_self _ _))
          rw [show ((l0 :: l1 :: body).take ((-(-2 : Int)).toNat)) = [l0, l1] from rfl,
            show leNat [l0, l1] = l0 + 256 * l1 from by simp [leNat],
            show ((l0 :: l1 :: body).drop ((-(-2 : Int)).toNat)) = body from rfl] at h
          by_cases hbl : body.length < l0 + 256 * l1
          · rw [if_pos hbl] at h
            exact absurd h (by simp)
          · rw [if_neg hbl] at h
            cases hrec : parseScript (body.drop (l0 + 256 * l1)) with
            | error e => rw [hrec] at h; exact absurd h (by simp)
            | ok ps =>
              rw [hrec] at h
              simp at h
              subst h
              have hun := ih (body.drop (l0 + 256 * l1))
                (by simp at hrlen; rw [List.length_drop]; omega)
                (fun x hx => hrb x (List.mem_cons_of_mem _
                  (List.mem_cons_of_mem _ (List.mem_of_mem_drop hx)))) ps hrec
              have htl : (body.take (l0 + 256 * l1)).length = l0 + 256 * l1 := by
                rw [List.length_take]
                omega
              unfold unparseScript
              rw [bytesEnc_pd2 (body.take (l0 + 256 * l1)) (by omega), hun, htl]
              rw [show (l0 + 256 * l1) % 256 = l0 from by omega,
                show (l0 + 256 * l1) / 256 % 256 = l1 from by omega]
              show Except.ok ((77 :: l0 :: l1 :: body.take (l0 + 256 * l1)) ++
                body.drop (l0 + 256 * l1)) = _
              simp [List.take_append_drop]
      -- PUSHDATA4
      · subst h78
        rw [show opcodeLength 78 = -4 from by decide] at h
        rw [if_neg (by decide), if_neg (by decide)] at h
        by_cases hr : rest.length < ((-(-4 : Int)).toNat)
        · rw [if_pos hr] at h
          exact absurd h (by simp)
        · rw [if_neg hr] at h
          obtain ⟨l0, l1, l2, l3, body, rfl⟩ :
              ∃ l0 l1 l2 l3 body, rest = l0 :: l1 :: l2 :: l3 :: body := by
            cases rest with
            | nil => simp at hr
            | cons x xs =>
              cases xs with
              | nil => simp at hr
              | cons y ys =>
                cases ys with
                | nil => simp at hr
                | cons z zs =>
                  cases zs with
                  | nil => simp at hr
                  | cons w ws => exact ⟨x, y, z, w, ws, rfl⟩
          have hl0 : l0 < 256 := hrb l0 (by simp)
          have hl1 : l1 < 256 := hrb l1 (by simp)
          have hl2 : l2 < 256 := hrb l2 (by simp)
          have hl3 : l3 < 256 := hrb l3 (by simp)
          rw [show ((l0 :: l1 :: l2 :: l3 :: body).take ((-(-4 : Int)).toNat)) =
              [l0, l1, l2, l3] from rfl,
            show leNat [l0, l1, l2, l3] =
              l0 + 256 * l1 + 65536 * l2 + 16777216 * l3 from by simp [leNat]; ring,
            show ((l0 :: l1 :: l2 :: l3 :: body).drop ((-(-4 : Int)).toNat)) = body
              from rfl] at h
          by_cases hbl : body.length < l0 + 256 * l1 + 65536 * l2 + 16777216 * l3
          · rw [if_pos hbl] at h
            exact absurd h (by simp)
          · rw [if_neg hbl] at h
            cases hrec : parseScript
                (body.drop (l0 + 256 * l1 + 65536 * l2 + 16777216 * l3)) with
            | error e => rw [hrec] at h; exact absurd h (by simp)
            | ok ps =>
              rw [hrec] at h
              simp at h
              subst h
              have hun := ih (body.drop (l0 + 256 * l1 + 65536 * l2 + 16777216 * l3))
                (by simp at hrlen; rw [List.length_drop]; omega)
                (fun x hx => hrb x (by
                  have := List.mem_of_mem_drop hx
                  simp
                  tauto)) ps hrec
              have htl : (body.take (l0 + 256 * l1 + 65536 * l2 + 16777216 * l3)).length =
                  l0 + 256 * l1 + 65536 * l2 + 16777216 * l3 := by
                rw [List.length_take]
                omega
              unfold unparseScript
              rw [bytesEnc_pd4 (body.take (l0 + 256 * l1 + 65536 * l2 + 16777216 * l3))
                (by omega), hun, htl]
              rw [show (l0 + 256 * l1 + 65536 * l2 + 16777216 * l3) % 256 = l0 from by omega,
                show (l0 + 256 * l1 + 65536 * l2 + 16777216 * l3) / 256 % 256 = l1 from by omega,
                show (l0 + 256 * l1 + 65536 * l2 + 16777216 * l3) / 65536 % 256 = l2 from by omega,
                show (l0 + 256 * l1 + 65536 * l2 + 16777216 * l3) / 16777216 % 256 = l3 from by omega]
              show Except.ok ((78 :: l0 :: l1 :: l2 :: l3 ::
                body.take (l0 + 256 * l1 + 65536 * l2 + 16777216 * l3)) ++
                body.drop (l0 + 256 * l1 + 65536 * l2 + 16777216 * l3)) = _
              simp [List.take_append_drop]
      -- single-byte opcode, values 79..
      · have hl : opcodeLength b = 1 := opcodeLength_one b (Or.inr h79)
        simp only [hl, if_pos rfl] at h
        cases hrec : parseScript rest with
        | error e => rw [hrec] at h; exact absurd h (by simp)
        | ok ps =>
          rw [hrec] at h
          simp at h
          subst h
          have hun := ih rest hrlen hrb ps hrec
          unfold unparseScript
          rw [bytesEnc_one b hl, hun]
          try rfl
/-- C9: for every syntactically well-formed byte script, decoding into
parsed opcodes and re-serializing each with bytesEnc, concatenated in
order, reproduces the original byte sequence exactly. -/
theorem c9_parse_unparse_roundtrip (s : List Nat) (hb : ∀ x ∈ s, x < 256)
    (pops : List ParsedOpcode) (h : parseScript s = .ok pops) :
    unparseScript pops = .ok s :=
  parse_unparse_bounded s.length s le_rfl hb pops h

/-- One parser step: the empty script. -/
theorem parseScript_nil : parseScript [] = .ok [] := by
  rw [parseScript.eq_def]

/-- One parser step: a one-byte opcode. -/
theorem parseScript_cons_one (b : Nat) (rest : List Nat) (h : opcodeLength b = 1) :
    parseScript (b :: rest) =
      (match parseScript rest with
       | .error e => .error e
       | .ok ps => .ok (⟨b, []⟩ :: ps)) := by
  rw [parseScript.eq_def]
  simp only []
  simp [h]

/-- One parser step: a direct data push. -/
theorem parseScript_cons_data (b : Nat) (rest : List Nat)
    (h1 : 1 ≤ b) (h2 : b ≤ 75) (h3 : ¬ rest.length < b) :
    parseScript (b :: rest) =
      (match parseScript (rest.drop b) with
       | .error e => .error e
       | .ok ps => .ok (⟨b, rest.take b⟩ :: ps)) := by
  rw [parseScript.eq_def]
  simp only []
  simp only [opcodeLength_data b h1 h2]
  rw [if_neg (by omega), if_pos (by omega),
    show ((b : Int) + 1).toNat - 1 = b from by omega, if_neg h3]

/-- One parser step: PUSHDATA1. -/
theorem parseScript_cons_pd1 (l0 : Nat) (body : List Nat)
    (h3 : ¬ body.length < l0) :
    parseScript (76 :: l0 :: body) =
      (match parseScript (body.drop l0) with
       | .error e => .error e
       | .ok ps => .ok (⟨76, body.take l0⟩ :: ps)) := by
  rw [parseScript.eq_def]
  simp only []
  rw [show opcodeLength 76 = -1 from by decide]
  rw [if_neg (by decide), if_neg (by decide), if_neg (by simp),
    show ((l0 :: body).take ((-(-1 : Int)).toNat)) = [l0] from rfl,
    show leNat [l0] = l0 from by simp [leNat],
    show ((l0 :: body).drop ((-(-1 : Int)).toNat)) = body from rfl,
    if_neg h3]

/-- Witness for C9: parsing the script Op1, OpData2 9 9, OpPushData1 1 5,
OpZero and re-serializing reproduces it byte for byte. -/
theorem c9_parse_unparse_roundtrip_witness :
    (∀ x ∈ [0x51, 0x02, 9, 9, 0x4c, 1, 5, 0x00], x < 256) ∧
    unparseScript [⟨0x51, []⟩, ⟨0x02, [9, 9]⟩, ⟨0x4c, [5]⟩, ⟨0x00, []⟩] =
      .ok [0x51, 0x02, 9, 9, 0x4c, 1, 5, 0x00] :=
  ⟨by decide,
   c9_parse_unparse_roundtrip _ (by decide) _ (by
    rw [parseScript_cons_one 0x51 _ (by decide),
      parseScript_cons_data 0x02 _ (by decide) (by decide) (by decide),
      show ([9, 9, 0x4c, 1, 5, 0x00].drop 0x02) = [0x4c, 1, 5, 0x00] from rfl,
      parseScript_cons_pd1 1 [5, 0x00] (by decide),
      show ([5, 0x00].drop 1) = [0x00] from rfl,
      parseScript_cons_one 0x00 _ (by decide),
      parseScript_nil]
    rfl)⟩
/-- Indexing a structured append at the junction. -/
theorem getElem?_append_cons {α : Type} (P : List α) (x : α) (R : List α) :
    (P ++ x :: R)[P.length]? = some x := by
  rw [List.getElem?_append_right (le_refl P.length)]
  simp

/-- Updating a structured append at the junction. -/
theorem set_append_cons {α : Type} (P : List α) (x y : α) (R : List α) :
    (P ++ x :: R).set P.length y = P ++ y :: R := by
  induction P with
  | nil => rfl
  | cons p ps ih =>
    show (p :: (ps ++ x :: R)).set (ps.length + 1) y = p :: (ps ++ y :: R)
    rw [List.set]
    rw [ih]

/-- What the source's parsedSigInfo memoization promises about an entry the
loop may consult: if it is marked parsed, the entry was reached with a
non-empty signature whose hash-type and signature encodings passed, and the
recorded outcome is exactly what parsing the signature yields. -/
def memoConsistent (flags : ScriptFlags) (oracle : ECOracle) (si : SigInfoSt) : Prop :=
  si.parsed = true →
    si.signature ≠ [] ∧
    checkHashTypeEncoding flags oracle (si.signature.getLastD 0) = none ∧
    checkSignatureEncoding flags oracle si.signature.dropLast = none ∧
    si.parsedOk = parseSigOk flags oracle si.signature.dropLast

/-- A fresh entry is vacuously consistent. -/
theorem memoConsistent_init (flags : ScriptFlags) (oracle : ECOracle) (s : List Nat) :
    memoConsistent flags oracle (initSigInfo s) :=
  fun hc => absurd hc (by simp [initSigInfo])

/-- Reading the element a drop decomposition starts with. -/
theorem getElem?_of_drop {α : Type} (A : List α) (n : Nat) (x : α) (R : List α)
    (h : A.drop n = x :: R) : A[n]? = some x := by
  have h0 := List.getElem?_drop A n 0
  rw [h] at h0
  simpa using h0.symm

/-- Setting the element a drop decomposition starts with. -/
theorem drop_set_of_drop {α : Type} (A : List α) (n : Nat) (x y : α) (R : List α)
    (h : A.drop n = x :: R) : (A.set n y).drop n = y :: R := by
  induction A generalizing n with
  | nil => simp at h
  | cons a A ih =>
    cases n with
    | zero =>
      simp at h ⊢
      exact h.2
    | succ n =>
      simp only [List.drop_succ_cons] at h
      simp only [List.set_cons_succ, List.drop_succ_cons]
      exact ih n h

/-- The drop decomposition one position further. -/
theorem drop_succ_of_drop {α : Type} (A : List α) (n : Nat) (x : α) (R : List α)
    (h : A.drop n = x :: R) : A.drop (n + 1) = R := by
  rw [← List.tail_drop, h]
  rfl
set_option maxHeartbeats 2000000 in
/-- The multisig loop of the source, started at any iteration boundary,
computes exactly the ordered two-pointer scan over the remaining signatures
and keys: `kidx` keys and `sidx` signatures have been consumed, the next
signature entry carries a consistent memo, and all later entries are fresh. -/
theorem msigGo_eq_scan (flags : ScriptFlags) (oracle : ECOracle) (w : Bool) :
    ∀ (J : List (List Nat)) (fuel : Nat) (keys : List (List Nat)) (kidx : Nat)
      (A : List SigInfoSt) (sidx : Nat) (Srem : List (List Nat)),
      keys.drop kidx = J →
      J.length + 1 ≤ fuel →
      (Srem = [] ∨
        (∃ σ T, Srem = σ.signature :: T ∧ A.drop sidx = σ :: T.map initSigInfo ∧
          memoConsistent flags oracle σ)) →
      msigGo flags oracle w fuel A keys (Srem.length : Int) ((J.length : Int) + 1)
        ((kidx : Int) - 1) (sidx : Int)
      = orderedScan flags oracle w Srem J := by
  intro J
  induction J with
  | nil =>
    intro fuel keys kidx A sidx Srem hkeys hfuel hinv
    obtain ⟨f, rfl⟩ : ∃ f, fuel = f + 1 := ⟨fuel - 1, by omega⟩
    rcases hinv with rfl | ⟨σ, T, rfl, hA, hσ⟩
    · simp only [msigGo]
      rw [if_neg (by simp), orderedScan.eq_def]
    · simp only [msigGo]
      rw [if_pos (by simp only [List.length_cons]; push_cast; omega)]
      rw [if_pos (by simp only [List.length_nil, List.length_cons]; push_cast; omega)]
      rw [orderedScan.eq_def]
  | cons kk J ihJ =>
    intro fuel keys kidx A sidx Srem hkeys hfuel hinv
    obtain ⟨f, rfl⟩ : ∃ f, fuel = f + 1 := ⟨fuel - 1, by omega⟩
    have hf : J.length + 1 ≤ f := by
      simp only [List.length_cons] at hfuel
      omega
    have hkeysk : keys[kidx]? = some kk := getElem?_of_drop keys kidx kk J hkeys
    have hkeys' : keys.drop (kidx + 1) = J := drop_succ_of_drop keys kidx kk J hkeys
    rcases hinv with rfl | ⟨σ, T, rfl, hA, hσ⟩
    · simp only [msigGo]
      rw [if_neg (by simp), orderedScan.eq_def]
    · have hAσ : A[sidx]? = some σ := getElem?_of_drop A sidx σ _ hA
      simp only [msigGo]
      rw [if_pos (by simp only [List.length_cons]; push_cast; omega)]
      rw [orderedScan.eq_def]
      simp only []
      by_cases hbr : J.length < T.length
      · rw [if_pos (by simp only [List.length_cons]; push_cast; omega), if_pos hbr]
      · rw [if_neg (by simp only [List.length_cons]; push_cast; omega), if_neg hbr]
        rw [show ((kidx : Int) - 1 + 1) = (kidx : Int) from by ring]
        simp only [Int.toNat_natCast]
        rw [hAσ, hkeysk]
        simp only []
        rw [show (((kk :: J).length : Int) + 1 - 1) = ((J.length : Int) + 1) from by
          simp only [List.length_cons]; push_cast; ring]
        rw [show ((kidx : Int)) = (((kidx + 1 : Nat)) : Int) - 1 from by push_cast; ring]
        -- the common continuation once the current signature has parsed well
        have hcont : ∀ (A₂ : List SigInfoSt) (σ₂ : SigInfoSt),
            A₂.drop sidx = σ₂ :: T.map initSigInfo → σ₂.signature = σ.signature →
            memoConsistent flags oracle σ₂ →
            (match checkPubKeyEncoding flags oracle kk with
             | some e => (.error e : Except ScriptError Bool)
             | none =>
               if ¬ oracle.parsePubKey kk then
                 msigGo flags oracle w f A₂ keys (((σ.signature :: T).length : Nat) : Int)
                   ((J.length : Int) + 1) (((kidx + 1 : Nat) : Int) - 1) (sidx : Int)
               else
                 match (if w then oracle.witnessHashErr (σ.signature.getLastD 0) else none) with
                 | some e => .error e
                 | none =>
                   if oracle.verify σ.signature kk then
                     msigGo flags oracle w f A₂ keys
                       ((((σ.signature :: T).length : Nat) : Int) - 1)
                       ((J.length : Int) + 1) (((kidx + 1 : Nat) : Int) - 1) ((sidx : Int) + 1)
                   else
                     msigGo flags oracle w f A₂ keys (((σ.signature :: T).length : Nat) : Int)
                       ((J.length : Int) + 1) (((kidx + 1 : Nat) : Int) - 1) (sidx : Int))
            = (match checkPubKeyEncoding flags oracle kk with
               | some e => .error e
               | none =>
                 if ¬ oracle.parsePubKey kk then orderedScan flags oracle w (σ.signature :: T) J
                 else
                   match (if w then oracle.witnessHashErr (σ.signature.getLastD 0) else none) with
                   | some e => .error e
                   | none =>
                     if oracle.verify σ.signature kk then orderedScan flags oracle w T J
                     else orderedScan flags oracle w (σ.signature :: T) J) := by
          intro A₂ σ₂ hA₂ hsig₂ hσ₂
          cases hcpk : checkPubKeyEncoding flags oracle kk with
          | some e => rfl
          | none =>
            simp only []
            by_cases hpk : oracle.parsePubKey kk = true
            · have hpk2 : ¬ ¬ oracle.parsePubKey kk = true := by simp [hpk]
              rw [if_neg hpk2, if_neg hpk2]
              cases hwit : (if w then oracle.witnessHashErr (σ.signature.getLastD 0) else none) with
              | some e => rfl
              | none =>
                simp only []
                by_cases hv : oracle.verify σ.signature kk = true
                · rw [if_pos hv, if_pos hv]
                  rw [show ((((σ.signature :: T).length : Nat) : Int) - 1) = ((T.length : Nat) : Int)
                    from by simp only [List.length_cons]; push_cast; ring]
                  rw [show ((sidx : Int) + 1) = (((sidx + 1 : Nat)) : Int) from by push_cast; ring]
                  apply ihJ f keys (kidx + 1) A₂ (sidx + 1) T hkeys' hf
                  cases T with
                  | nil => exact Or.inl rfl
                  | cons t T' =>
                    refine Or.inr ⟨initSigInfo t, T', rfl, ?_, memoConsistent_init flags oracle t⟩
                    rw [drop_succ_of_drop A₂ sidx σ₂ _ hA₂]
                    rfl
                · rw [if_neg hv, if_neg hv]
                  apply ihJ f keys (kidx + 1) A₂ sidx (σ.signature :: T) hkeys' hf
                  exact Or.inr ⟨σ₂, T, by rw [hsig₂], hA₂, hσ₂⟩
            · have hpk2 : ¬ oracle.parsePubKey kk = true := hpk
              rw [if_pos hpk2, if_pos hpk2]
              apply ihJ f keys (kidx + 1) A₂ sidx (σ.signature :: T) hkeys' hf
              exact Or.inr ⟨σ₂, T, by rw [hsig₂], hA₂, hσ₂⟩
        by_cases hs : σ.signature = []
        · rw [if_pos hs, if_pos hs]
          apply ihJ f keys (kidx + 1) A sidx (σ.signature :: T) hkeys' hf
          exact Or.inr ⟨σ, T, rfl, hA, hσ⟩
        · rw [if_neg hs, if_neg hs]
          simp only [msigParseOnce]
          by_cases hp : σ.parsed = true
          · have hp2 : ¬ ¬ σ.parsed = true := by simp [hp]
            rw [if_neg hp2]
            simp only []
            obtain ⟨hne, hcht, hcse, hok⟩ := hσ hp
            rw [hcht]
            simp only []
            rw [hcse]
            simp only []
            rw [hok]
            by_cases hpo : parseSigOk flags oracle σ.signature.dropLast = true
            · have hpo2 : ¬ ¬ parseSigOk flags oracle σ.signature.dropLast = true := by
                simp [hpo]
              rw [if_neg hpo2, if_neg hpo2]
              exact hcont A σ hA rfl hσ
            · have hpo2 : ¬ parseSigOk flags oracle σ.signature.dropLast = true := hpo
              rw [if_pos hpo2, if_pos hpo2]
              apply ihJ f keys (kidx + 1) A sidx (σ.signature :: T) hkeys' hf
              exact Or.inr ⟨σ, T, rfl, hA, hσ⟩
          · have hp2 : ¬ σ.parsed = true := hp
            rw [if_pos hp2]
            cases hcht : checkHashTypeEncoding flags oracle (σ.signature.getLastD 0) with
            | some e => rfl
            | none =>
              simp only []
              cases hcse : checkSignatureEncoding flags oracle σ.signature.dropLast with
              | some e => rfl
              | none =>
                simp only []
                have hA' : (A.set sidx
                    ⟨σ.signature, true, parseSigOk flags oracle σ.signature.dropLast⟩).drop sidx =
                    ⟨σ.signature, true, parseSigOk flags oracle σ.signature.dropLast⟩ ::
                      T.map initSigInfo :=
                  drop_set_of_drop A sidx σ _ _ hA
                have hσ' : memoConsistent flags oracle
                    ⟨σ.signature, true, parseSigOk flags oracle σ.signature.dropLast⟩ :=
                  fun _ => ⟨hs, hcht, hcse, rfl⟩
                by_cases hpo : parseSigOk flags oracle σ.signature.dropLast = true
                · have hpo2 : ¬ ¬ parseSigOk flags oracle σ.signature.dropLast = true := by
                    simp [hpo]
                  rw [if_neg hpo2, if_neg hpo2]
                  exact hcont _ _ hA' rfl hσ'
                · have hpo2 : ¬ parseSigOk flags oracle σ.signature.dropLast = true := hpo
                  rw [if_pos hpo2, if_pos hpo2]
                  apply ihJ f keys (kidx + 1)
                    (A.set sidx ⟨σ.signature, true, parseSigOk flags oracle σ.signature.dropLast⟩)
                    sidx (σ.signature :: T) hkeys' hf
                  exact Or.inr ⟨⟨σ.signature, true,
                    parseSigOk flags oracle σ.signature.dropLast⟩, T, rfl, hA', hσ'⟩
/-- C1: the source's CHECKMULTISIG matching loop — including its counter
arithmetic, which increments numPubKeys once before the loop and decrements
it at each iteration ahead of the bound check — computes exactly the
ordered two-pointer scan over the signature and key lists (first conjunct,
started from the handler's initial counters): signatures match keys in
order, a matched key is never reused, and (second and third conjuncts) the
loop returns false as soon as the signatures still to match outnumber the
remaining candidate keys. -/
theorem c1_multisig_ordered_scan :
    (∀ (flags : ScriptFlags) (oracle : ECOracle) (w : Bool)
      (sigs keys : List (List Nat)),
      msigGo flags oracle w (keys.length + 2) (sigs.map initSigInfo) keys
        (sigs.length : Int) ((keys.length : Int) + 1) (-1) 0
      = orderedScan flags oracle w sigs keys) ∧
    (∀ (flags : ScriptFlags) (oracle : ECOracle) (w : Bool) (fuel : Nat)
      (A : List SigInfoSt) (keys : List (List Nat)) (nSig nKey kIdx sIdx : Int),
      0 < nSig → nKey - 1 < nSig →
      msigGo flags oracle w (fuel + 1) A keys nSig nKey kIdx sIdx = .ok false) ∧
    (∀ (flags : ScriptFlags) (oracle : ECOracle) (w : Bool)
      (sigs keys : List (List Nat)), keys.length < sigs.length →
      orderedScan flags oracle w sigs keys = .ok false) := by
  refine ⟨?_, ?_, ?_⟩
  · intro flags oracle w sigs keys
    have hinv : (sigs = [] ∨
        (∃ σ T, sigs = σ.signature :: T ∧
          (sigs.map initSigInfo).drop 0 = σ :: T.map initSigInfo ∧
          memoConsistent flags oracle σ)) := by
      cases sigs with
      | nil => exact Or.inl rfl
      | cons s t =>
        exact Or.inr ⟨initSigInfo s, t, rfl, rfl, memoConsistent_init flags oracle s⟩
    have h := msigGo_eq_scan flags oracle w keys (keys.length + 2) keys 0
      (sigs.map initSigInfo) 0 sigs (by simp) (by omega) hinv
    simpa using h
  · intro flags oracle w fuel A keys nSig nKey kIdx sIdx h1 h2
    simp only [msigGo]
    rw [if_pos h1, if_pos h2]
  · intro flags oracle w sigs keys h
    cases sigs with
    | nil => simp at h
    | cons s ss =>
      cases keys with
      | nil => rw [orderedScan.eq_def]
      | cons k ks =>
        rw [orderedScan.eq_def]
        simp only []
        rw [if_pos (by simp only [List.length_cons] at h; omega)]

/-- Witness for C1: the equivalence instantiated at a 1-of-1 input, the
early counter exit at remaining keys 1 and remaining signatures 2, and the
ordered scan failing outright with two signatures against one key. -/
theorem c1_multisig_ordered_scan_witness :
    (msigGo {} egOracle false (([[9]] : List (List Nat)).length + 2)
        (([[5, 1]] : List (List Nat)).map initSigInfo) [[9]]
        ((([[5, 1]] : List (List Nat)).length : Int))
        ((([[9]] : List (List Nat)).length : Int) + 1) (-1) 0
      = orderedScan {} egOracle false [[5, 1]] [[9]]) ∧
    msigGo {} egOracle false (3 + 1) [] [] 2 2 (-1) 0 = .ok false ∧
    orderedScan {} egOracle false [[1, 1], [2, 1]] [[9]] = .ok false :=
  ⟨c1_multisig_ordered_scan.1 {} egOracle false [[5, 1]] [[9]],
   c1_multisig_ordered_scan.2.1 {} egOracle false 3 [] [] 2 2 (-1) 0
     (by decide) (by decide),
   c1_multisig_ordered_scan.2.2 {} egOracle false [[1, 1], [2, 1]] [[9]]
     (by decide)⟩
